import Mathlib

/-!
Verification development for the ArchiMate model server
(validator, layout engine, XML-export generators and exporter orchestration).

The TypeScript sources are shallowly embedded: JavaScript `Map` objects become
association lists with in-place-overwriting `set` (`mset`) and first-match
`get` (`aget`), exceptions become `Except String`, and the numeric layout
arithmetic — which operates exclusively on integers for every configuration
expressible with the shipped defaults — is carried out in `Int`, with `ℚ`
used exactly where the source divides (shape centers and bend-point
midpoints).  The theorems at the end of the file settle the frozen claims.
-/

namespace Archimate

/-- JavaScript `Map.prototype.set` on an association list: overwrite the
binding in place if the key is present (preserving insertion order),
otherwise append the new binding at the end. -/
def mset {κ α : Type} [DecidableEq κ] (k : κ) (v : α) : List (κ × α) → List (κ × α)
  | [] => [(k, v)]
  | (k₁, v₁) :: rest => if k₁ = k then (k, v) :: rest else (k₁, v₁) :: mset k v rest

/-- JavaScript `Map.prototype.get` on an association list: first binding wins
(`mset` keeps keys unique, so this matches `Map` semantics). -/
def aget {κ α : Type} [DecidableEq κ] (k : κ) : List (κ × α) → Option α
  | [] => none
  | (k₁, v₁) :: rest => if k₁ = k then some v₁ else aget k rest

/-- `new Map(entries)`: sequentially `set` every entry, so a later entry with
the same key overwrites an earlier one. -/
def mapOf {κ α : Type} [DecidableEq κ] (entries : List (κ × α)) : List (κ × α) :=
  entries.foldl (fun m kv => mset kv.1 kv.2 m) []

/-- The seven ArchiMate layers (`enum Layer`, src/models/archimate.ts). -/
inductive Layer : Type
  | motivation | strategy | business | application | technology | physical | implementation
deriving DecidableEq

/-- The string value of each `Layer` enum member. -/
def layerTag : Layer → String
  | .motivation => "Motivation"
  | .strategy => "Strategy"
  | .business => "Business"
  | .application => "Application"
  | .technology => "Technology"
  | .physical => "Physical"
  | .implementation => "Implementation"

/-- The ArchiMate element types (`enum ElementType`, src/models/archimate.ts). -/
inductive ElementType : Type
  | stakeholder | driver | assessment | goal | outcome | principle | requirement
  | constraint | meaning | value
  | resource | capability | courseOfAction | valueStream
  | businessActor | businessRole | businessCollaboration | businessInterface
  | businessProcess | businessFunction | businessInteraction | businessEvent
  | businessService | businessObject | contract | representation | product
  | applicationComponent | applicationCollaboration | applicationInterface
  | applicationFunction | applicationInteraction | applicationProcess
  | applicationEvent | applicationService | dataObject
  | node | device | systemSoftware | technologyCollaboration | technologyInterface
  | path | communicationNetwork | technologyFunction | technologyProcess
  | technologyInteraction | technologyEvent | technologyService | artifact
  | equipment | facility | distributionNetwork | material | location
  | workPackage | deliverable | implementationEvent | plateau | gap
deriving DecidableEq

/-- The string value of each `ElementType` enum member. -/
def elementTypeTag : ElementType → String
  | .stakeholder => "Stakeholder"
  | .driver => "Driver"
  | .assessment => "Assessment"
  | .goal => "Goal"
  | .outcome => "Outcome"
  | .principle => "Principle"
  | .requirement => "Requirement"
  | .constraint => "Constraint"
  | .meaning => "Meaning"
  | .value => "Value"
  | .resource => "Resource"
  | .capability => "Capability"
  | .courseOfAction => "CourseOfAction"
  | .valueStream => "ValueStream"
  | .businessActor => "BusinessActor"
  | .businessRole => "BusinessRole"
  | .businessCollaboration => "BusinessCollaboration"
  | .businessInterface => "BusinessInterface"
  | .businessProcess => "BusinessProcess"
  | .businessFunction => "BusinessFunction"
  | .businessInteraction => "BusinessInteraction"
  | .businessEvent => "BusinessEvent"
  | .businessService => "BusinessService"
  | .businessObject => "BusinessObject"
  | .contract => "Contract"
  | .representation => "Representation"
  | .product => "Product"
  | .applicationComponent => "ApplicationComponent"
  | .applicationCollaboration => "ApplicationCollaboration"
  | .applicationInterface => "ApplicationInterface"
  | .applicationFunction => "ApplicationFunction"
  | .applicationInteraction => "ApplicationInteraction"
  | .applicationProcess => "ApplicationProcess"
  | .applicationEvent => "ApplicationEvent"
  | .applicationService => "ApplicationService"
  | .dataObject => "DataObject"
  | .node => "Node"
  | .device => "Device"
  | .systemSoftware => "SystemSoftware"
  | .technologyCollaboration => "TechnologyCollaboration"
  | .technologyInterface => "TechnologyInterface"
  | .path => "Path"
  | .communicationNetwork => "CommunicationNetwork"
  | .technologyFunction => "TechnologyFunction"
  | .technologyProcess => "TechnologyProcess"
  | .technologyInteraction => "TechnologyInteraction"
  | .technologyEvent => "TechnologyEvent"
  | .technologyService => "TechnologyService"
  | .artifact => "Artifact"
  | .equipment => "Equipment"
  | .facility => "Facility"
  | .distributionNetwork => "DistributionNetwork"
  | .material => "Material"
  | .location => "Location"
  | .workPackage => "WorkPackage"
  | .deliverable => "Deliverable"
  | .implementationEvent => "ImplementationEvent"
  | .plateau => "Plateau"
  | .gap => "Gap"

/-- The ArchiMate relationship types (`enum RelationshipType`). -/
inductive RelationshipType : Type
  | composition | aggregation | assignment | realization
  | serving | access | influence
  | triggering | flow
  | specialization | association | junction
deriving DecidableEq

/-- The string value of each `RelationshipType` enum member. -/
def relationshipTypeTag : RelationshipType → String
  | .composition => "Composition"
  | .aggregation => "Aggregation"
  | .assignment => "Assignment"
  | .realization => "Realization"
  | .serving => "Serving"
  | .access => "Access"
  | .influence => "Influence"
  | .triggering => "Triggering"
  | .flow => "Flow"
  | .specialization => "Specialization"
  | .association => "Association"
  | .junction => "Junction"

/-- An ArchiMate element (`BaseElement`): id, name, type tag and the layer
tag the construction step derives from the type. -/
structure BaseElement : Type where
  id : String
  name : String
  type : ElementType
  layer : Layer
deriving DecidableEq

/-- A directed, typed relationship between two element ids
(`class Relationship`, src/core/relationship.ts). -/
structure Relationship : Type where
  id : String
  source : String
  target : String
  type : RelationshipType
deriving DecidableEq

/-- The sparse compatibility matrix (`validationMatrix`,
src/validator/validation_matrix.ts): ordered (source type, target type)
pairs mapped to the list of permitted relationship types. -/
def validationMatrix : List (ElementType × List (ElementType × List RelationshipType)) :=
  [ (.businessActor, [(.businessRole, [.assignment])]),
    (.applicationComponent, [(.applicationComponent, [.composition, .aggregation])]),
    (.valueStream, [(.valueStream, [.composition, .aggregation])]),
    (.location, [(.location, [.composition, .aggregation])]) ]

/-- A validation violation (`ValidationError`, src/validator/validation_error.ts). -/
structure ValidationError : Type where
  message : String
  source : BaseElement
  target : BaseElement
  relationship : Relationship
deriving DecidableEq

/-- The violation record `Validator.validate` pushes for a disallowed
relationship. -/
def mkViolation (source target : BaseElement) (relationship : Relationship) : ValidationError :=
  { message := "Invalid relationship type \x27" ++ relationshipTypeTag relationship.type
      ++ "\x27 between \x27" ++ elementTypeTag source.type
      ++ "\x27 and \x27" ++ elementTypeTag target.type ++ "\x27"
    source := source
    target := target
    relationship := relationship }

/-- `Validator.validate` (src/validator/validator.ts): build an id-keyed map
of the elements, then for each relationship whose source and target ids both
resolve, push a violation when the matrix has no entry for the type pair or
the relationship type is not in the permitted list; relationships with an
unresolvable endpoint are skipped. -/
def validate (elements : List BaseElement) (relationships : List Relationship) :
    List ValidationError :=
  let elementMap := mapOf (elements.map (fun e => (e.id, e)))
  relationships.foldl (fun errors relationship =>
    match aget relationship.source elementMap, aget relationship.target elementMap with
    | some source, some target =>
        match (aget source.type validationMatrix).bind (fun m => aget target.type m) with
        | none => errors ++ [mkViolation source target relationship]
        | some allowedRelationships =>
            if relationship.type ∈ allowedRelationships then errors
            else errors ++ [mkViolation source target relationship]
    | _, _ => errors) []

/-! ## Layout engine (src/xml-export/layout-engine.ts)

All arithmetic performed by `generateLayout` is integer arithmetic for the
shipped configuration, so positions and dimensions are embedded as `Int`. -/

/-- A 2-D position (`interface Position`). -/
structure Position : Type where
  x : Int
  y : Int
deriving DecidableEq

/-- Width/height of an element box (`interface ElementDimensions`). -/
structure ElementDimensions : Type where
  width : Int
  height : Int
deriving DecidableEq

/-- Layout configuration (`interface LayoutConfiguration`). -/
structure LayoutConfiguration : Type where
  gridSpacing : Int
  layerVerticalSpacing : Int
  elementSpacing : Int
  defaultElementSize : ElementDimensions
  layerOrder : List Layer
  viewportPadding : Int
deriving DecidableEq

/-- The canonical layer order of the default configuration. -/
def canonicalLayerOrder : List Layer :=
  [.motivation, .strategy, .business, .application, .technology, .physical, .implementation]

/-- The defaults the `LayoutEngine` constructor fills in when no override is
given. -/
def defaultLayoutConfiguration : LayoutConfiguration :=
  { gridSpacing := 20
    layerVerticalSpacing := 120
    elementSpacing := 180
    defaultElementSize := { width := 120, height := 55 }
    layerOrder := canonicalLayerOrder
    viewportPadding := 60 }

/-- Result of a layout run (`interface LayoutResult`). -/
structure LayoutResult : Type where
  elementPositions : List (String × Position)
  elementDimensions : List (String × ElementDimensions)
  viewportWidth : Int
  viewportHeight : Int
deriving DecidableEq

/-- The per-type minimum-size table of `getElementDimensions`
(a `Record<string, ElementDimensions>` keyed by the type tag). -/
def typeAdjustments : List (String × ElementDimensions) :=
  [ ("BusinessActor", { width := 140, height := 60 }),
    ("BusinessProcess", { width := 160, height := 60 }),
    ("ApplicationComponent", { width := 150, height := 70 }),
    ("ApplicationService", { width := 140, height := 60 }),
    ("DataObject", { width := 100, height := 50 }),
    ("Node", { width := 130, height := 65 }),
    ("Device", { width := 120, height := 55 }) ]

/-- `LayoutEngine.getElementDimensions`: start from the configured default
size, widen for names longer than 15 characters, then take the
componentwise max with the per-type adjustment when one exists. -/
def getElementDimensions (config : LayoutConfiguration) (element : BaseElement) :
    ElementDimensions :=
  let baseSize := config.defaultElementSize
  let nameLength : Int := element.name.length
  let baseSize :=
    if nameLength > 15 then
      { baseSize with width := max baseSize.width (nameLength * 8) }
    else baseSize
  match aget (elementTypeTag element.type) typeAdjustments with
  | some typeAdjustment =>
      { width := max baseSize.width typeAdjustment.width
        height := max baseSize.height typeAdjustment.height }
  | none => baseSize

/-- Lexicographic byte order on character lists.  On the closed vocabulary of
`ElementType` tags (CamelCase ASCII words whose first differing characters
always share case) this coincides with the default-locale collation that
`String.prototype.localeCompare` applies in the source. -/
def charListLe : List Char → List Char → Bool
  | [], _ => true
  | _ :: _, [] => false
  | a :: as, b :: bs => if a = b then charListLe as bs else decide (a.toNat < b.toNat)

/-- Insert an element into a list already sorted by type tag, after every
element whose tag compares ≤, preserving the relative order of equal keys. -/
def insertByType (e : BaseElement) : List BaseElement → List BaseElement
  | [] => [e]
  | f :: rest =>
      if charListLe (elementTypeTag f.type).data (elementTypeTag e.type).data then
        f :: insertByType e rest
      else e :: f :: rest

/-- `[...elements].sort((a, b) => a.type.localeCompare(b.type))`: JavaScript
`Array.prototype.sort` is stable, so any stable sort by the same total
preorder computes the same list; a stable insertion sort is used here. -/
def sortByType (elements : List BaseElement) : List BaseElement :=
  elements.foldl (fun acc e => insertByType e acc) []

/-- The loop body of `layoutLayer`: walk the sorted elements left to right,
assigning `(currentX, startY)` and advancing the cursor by width plus the
inter-element spacing, while tracking the tallest element. -/
def layerLoop (config : LayoutConfiguration) (startY : Int) :
    List BaseElement → List (String × Position) → List (String × ElementDimensions) →
    Int → Int →
    List (String × Position) × List (String × ElementDimensions) × Int × Int
  | [], positions, dimensions, currentX, maxHeight =>
      (positions, dimensions, currentX, maxHeight)
  | element :: rest, positions, dimensions, currentX, maxHeight =>
      let elementDims := getElementDimensions config element
      layerLoop config startY rest
        (mset element.id { x := currentX, y := startY } positions)
        (mset element.id elementDims dimensions)
        (currentX + elementDims.width + config.elementSpacing)
        (max maxHeight elementDims.height)

/-- Output of laying out one layer (`layoutLayer`'s return object). -/
structure LayerLayout : Type where
  positions : List (String × Position)
  dimensions : List (String × ElementDimensions)
  nextY : Int
  maxX : Int
deriving DecidableEq

/-- `LayoutEngine.layoutLayer`: sort the layer's elements by type tag, lay
them out left to right starting at the viewport padding, and report the next
row offset (startY + tallest + inter-layer spacing) and the maximal x
extent (cursor minus the trailing spacing). -/
def layoutLayer (config : LayoutConfiguration) (elements : List BaseElement)
    (startY : Int) : LayerLayout :=
  let sortedElements := sortByType elements
  let out := layerLoop config startY sortedElements [] [] config.viewportPadding 0
  { positions := out.1
    dimensions := out.2.1
    nextY := startY + out.2.2.2 + config.layerVerticalSpacing
    maxX := out.2.2.1 - config.elementSpacing }

/-- The layer-by-layer loop of `generateLayout`.  `elementsByLayer.get(layer)
|| []` is the order-preserving filter of the input by layer tag; empty
buckets are skipped, non-empty buckets are laid out at the current row
offset and merged into the shared position/dimension maps. -/
def genLoop (config : LayoutConfiguration) (elements : List BaseElement) :
    List Layer → List (String × Position) → List (String × ElementDimensions) →
    Int → Int →
    List (String × Position) × List (String × ElementDimensions) × Int × Int
  | [], elementPositions, elementDimensions, currentY, maxWidth =>
      (elementPositions, elementDimensions, currentY, maxWidth)
  | layer :: rest, elementPositions, elementDimensions, currentY, maxWidth =>
      let layerElements := elements.filter (fun e => e.layer == layer)
      if layerElements.isEmpty then
        genLoop config elements rest elementPositions elementDimensions currentY maxWidth
      else
        let layerLayout := layoutLayer config layerElements currentY
        genLoop config elements rest
          (layerLayout.positions.foldl (fun m kv => mset kv.1 kv.2 m) elementPositions)
          (layerLayout.dimensions.foldl (fun m kv => mset kv.1 kv.2 m) elementDimensions)
          layerLayout.nextY
          (max maxWidth layerLayout.maxX)

/-- `LayoutEngine.generateLayout`: iterate the configured layer order,
accumulating positions and dimensions, then pad the maximal extents into the
viewport size. -/
def generateLayout (config : LayoutConfiguration) (elements : List BaseElement)
    (relationships : List Relationship) : LayoutResult :=
  let out := genLoop config elements config.layerOrder [] [] config.viewportPadding 0
  { elementPositions := out.1
    elementDimensions := out.2.1
    viewportWidth := out.2.2.2 + config.viewportPadding
    viewportHeight := out.2.2.1 + config.viewportPadding }

/-- JavaScript `Set.prototype.add` on a list kept in insertion order. -/
def saddUnique (x : String) (s : List String) : List String :=
  if x ∈ s then s else s ++ [x]

/-- `LayoutEngine.buildConnectionMap`: bidirectional adjacency map of the
relationship endpoints. -/
def buildConnectionMap (relationships : List Relationship) :
    List (String × List String) :=
  relationships.foldl (fun connections rel =>
    let connections :=
      if (aget rel.source connections).isSome then connections
      else mset rel.source [] connections
    let connections :=
      if (aget rel.target connections).isSome then connections
      else mset rel.target [] connections
    let connections :=
      mset rel.source (saddUnique rel.target ((aget rel.source connections).getD []))
        connections
    mset rel.target (saddUnique rel.source ((aget rel.target connections).getD []))
      connections) []

/-- `LayoutEngine.optimizeForConnections`: the documented no-op placeholder —
returns a copy of the original positions unchanged. -/
def optimizeForConnections (positions : List (String × Position))
    (connections : List (String × List String))
    (dimensions : List (String × ElementDimensions)) : List (String × Position) :=
  positions

/-- `LayoutEngine.generateRelationshipAwareLayout`: basic layer layout
followed by the connection-aware refinement pass. -/
def generateRelationshipAwareLayout (config : LayoutConfiguration)
    (elements : List BaseElement) (relationships : List Relationship) : LayoutResult :=
  let basicLayout := generateLayout config elements relationships
  let connectionMap := buildConnectionMap relationships
  let optimizedPositions :=
    optimizeForConnections basicLayout.elementPositions connectionMap
      basicLayout.elementDimensions
  { basicLayout with elementPositions := optimizedPositions }

/-! ## View generator (src/xml-export/view-xml-generator.ts) -/

/-- Fill/line/text color triple (`interface ColorMapping`). -/
structure ColorMapping : Type where
  fillColor : String
  lineColor : String
  textColor : String
deriving DecidableEq

/-- `ColorTheme.getColorsForElement`: look the type up in the theme's mapping
and fall back to white/black/black. -/
def getColorsForElement (theme : List (ElementType × ColorMapping))
    (elementType : ElementType) : ColorMapping :=
  (aget elementType theme).getD
    { fillColor := "#FFFFFF", lineColor := "#000000", textColor := "#000000" }

/-- A positioned, styled shape for one element (`interface VisualElement`). -/
structure VisualElement : Type where
  id : String
  elementRef : String
  x : Int
  y : Int
  width : Int
  height : Int
  fillColor : String
  lineColor : String
  textColor : String
deriving DecidableEq

/-- A bend-point coordinate.  The source divides widths by two here, so these
coordinates live in `ℚ`. -/
structure BendPoint : Type where
  x : ℚ
  y : ℚ
deriving DecidableEq

/-- A rendered connection (`interface VisualConnection`); `bendpoints` is
`undefined` (`none`) for a direct connection. -/
structure VisualConnection : Type where
  id : String
  relationshipRef : String
  source : String
  target : String
  bendpoints : Option (List BendPoint)
  lineColor : String
  lineWidth : Int
deriving DecidableEq

/-- `ViewXmlGenerator.createVisualElements`: one visual shape per input
element, with position falling back to (100, 100) and dimensions to 120×55
when the layout result has no entry for the element's id. -/
def createVisualElements (theme : List (ElementType × ColorMapping))
    (elements : List BaseElement) (layoutResult : LayoutResult) : List VisualElement :=
  elements.map (fun element =>
    let position := (aget element.id layoutResult.elementPositions).getD { x := 100, y := 100 }
    let dimensions :=
      (aget element.id layoutResult.elementDimensions).getD { width := 120, height := 55 }
    let colors := getColorsForElement theme element.type
    { id := "visual-" ++ element.id
      elementRef := element.id
      x := position.x
      y := position.y
      width := dimensions.width
      height := dimensions.height
      fillColor := colors.fillColor
      lineColor := colors.lineColor
      textColor := colors.textColor })

/-- `ViewXmlGenerator.calculateBendpoints`: compare the distance between the
two shape centers with 200 and return the single midpoint bend point for
long connections, `undefined` otherwise.  The source compares
`Math.sqrt(dx² + dy²) > 200`; over non-negative reals that holds exactly
when `dx² + dy² > 200²`, which is the form used here. -/
def calculateBendpoints (source target : VisualElement) : Option (List BendPoint) :=
  let sourceCenter : BendPoint :=
    { x := (source.x : ℚ) + (source.width : ℚ) / 2
      y := (source.y : ℚ) + (source.height : ℚ) / 2 }
  let targetCenter : BendPoint :=
    { x := (target.x : ℚ) + (target.width : ℚ) / 2
      y := (target.y : ℚ) + (target.height : ℚ) / 2 }
  if (targetCenter.x - sourceCenter.x) ^ 2 + (targetCenter.y - sourceCenter.y) ^ 2
      > 200 ^ 2 then
    some [{ x := (sourceCenter.x + targetCenter.x) / 2
            y := (sourceCenter.y + targetCenter.y) / 2 }]
  else
    none

/-- `Array.prototype.map` over a callback that may throw: the first exception
aborts the whole map. -/
def mapE {α β : Type} (f : α → Except String β) : List α → Except String (List β)
  | [] => .ok []
  | a :: rest =>
      match f a with
      | .error e => .error e
      | .ok b =>
          match mapE f rest with
          | .error e => .error e
          | .ok bs => .ok (b :: bs)

/-- `ViewXmlGenerator.createVisualConnections`: index the visual shapes by
element reference, then map every relationship to a connection between the
matching shapes, throwing when either endpoint has no shape. -/
def createVisualConnections (relationships : List Relationship)
    (visualElements : List VisualElement) : Except String (List VisualConnection) :=
  let elementMap := visualElements.foldl (fun m ve => mset ve.elementRef ve m) []
  mapE (fun relationship =>
    match aget relationship.source elementMap, aget relationship.target elementMap with
    | some sourceVisual, some targetVisual =>
        .ok { id := "connection-" ++ relationship.id
              relationshipRef := relationship.id
              source := sourceVisual.id
              target := targetVisual.id
              bendpoints := calculateBendpoints sourceVisual targetVisual
              lineColor := "#000000"
              lineWidth := 1 }
    | _, _ => .error ("Missing visual elements for relationship " ++ relationship.id))
    relationships

/-! ## Element generator escaping (src/xml-export/element-xml-generator.ts) -/

/-- The apostrophe character. -/
def aposChar : Char := Char.ofNat 39

/-- One global single-character regex replacement,
`.replace(/c/g, replacement)`. -/
def replaceAllChar (c : Char) (replacement : List Char) (s : List Char) : List Char :=
  s.flatMap (fun ch => if ch = c then replacement else [ch])

/-- `ElementXmlGenerator.escapeXml` on the underlying character list: the
source's five sequential global replacements, ampersand first. -/
def escapeXmlList (s : List Char) : List Char :=
  replaceAllChar aposChar "&#39;".data
    (replaceAllChar '"' "&quot;".data
      (replaceAllChar '>' "&gt;".data
        (replaceAllChar '<' "&lt;".data
          (replaceAllChar '&' "&amp;".data s))))

/-- `ElementXmlGenerator.escapeXml`. -/
def escapeXml (text : String) : String :=
  ⟨escapeXmlList text.data⟩

/-- The entity (or singleton) a single character contributes to the escaped
output.  `escapeXmlList` is proved equal to `flatMap entityOf`. -/
def entityOf (c : Char) : List Char :=
  if c = '&' then "&amp;".data
  else if c = '<' then "&lt;".data
  else if c = '>' then "&gt;".data
  else if c = '"' then "&quot;".data
  else if c = aposChar then "&#39;".data
  else [c]

/-- Modelled from the spec: standard XML entity decoding — the five W3C
predefined entities plus the decimal character reference `&#39;` that the
escaper emits for apostrophes.  The repository serializes markup but
contains no re-parser, so the decoder follows the spec's words: at an
ampersand, consume a recognized entity; otherwise copy the character. -/
def unescapeXmlList : List Char → List Char
  | '&' :: 'a' :: 'm' :: 'p' :: ';' :: rest => '&' :: unescapeXmlList rest
  | '&' :: 'l' :: 't' :: ';' :: rest => '<' :: unescapeXmlList rest
  | '&' :: 'g' :: 't' :: ';' :: rest => '>' :: unescapeXmlList rest
  | '&' :: 'q' :: 'u' :: 'o' :: 't' :: ';' :: rest => '"' :: unescapeXmlList rest
  | '&' :: 'a' :: 'p' :: 'o' :: 's' :: ';' :: rest => Char.ofNat 39 :: unescapeXmlList rest
  | '&' :: '#' :: '3' :: '9' :: ';' :: rest => Char.ofNat 39 :: unescapeXmlList rest
  | c :: rest => c :: unescapeXmlList rest
  | [] => []

/-- Modelled from the spec: standard XML entity decoding on strings. -/
def unescapeXml (text : String) : String :=
  ⟨unescapeXmlList text.data⟩

/-- Every ampersand in the list begins one of the recognized entities. -/
def noRawAmp : List Char → Bool
  | '&' :: 'a' :: 'm' :: 'p' :: ';' :: rest => noRawAmp rest
  | '&' :: 'l' :: 't' :: ';' :: rest => noRawAmp rest
  | '&' :: 'g' :: 't' :: ';' :: rest => noRawAmp rest
  | '&' :: 'q' :: 'u' :: 'o' :: 't' :: ';' :: rest => noRawAmp rest
  | '&' :: 'a' :: 'p' :: 'o' :: 's' :: ';' :: rest => noRawAmp rest
  | '&' :: '#' :: '3' :: '9' :: ';' :: rest => noRawAmp rest
  | '&' :: _ => false
  | _ :: rest => noRawAmp rest
  | [] => true

/-! ## Relationship generator (src/xml-export/relationship-xml-generator.ts) -/

/-- Options of `RelationshipXmlGenerator` (`RelationshipGenerationOptions`). -/
structure RelationshipGenerationOptions : Type where
  includeNames : Bool := false
  validateReferences : Bool := false
  groupByType : Bool := false
  includeDocumentation : Bool := false
deriving DecidableEq

/-- `RelationshipXmlGenerator.validateRelationshipReferences`: throw when the
source or the target id is not among the element ids. -/
def validateRelationshipReferences (relationship : Relationship)
    (elements : List BaseElement) : Except String Unit :=
  let elementIds := elements.map BaseElement.id
  if relationship.source ∉ elementIds then
    .error ("Relationship " ++ relationship.id
      ++ " references non-existent source element: " ++ relationship.source)
  else if relationship.target ∉ elementIds then
    .error ("Relationship " ++ relationship.id
      ++ " references non-existent target element: " ++ relationship.target)
  else .ok ()

/-- The type → verb table of `getRelationshipVerb`.  The table covers every
enum member, so the `|| 'relates to'` fallback of the source is
unreachable. -/
def getRelationshipVerb : RelationshipType → String
  | .composition => "composes"
  | .aggregation => "aggregates"
  | .assignment => "is assigned to"
  | .realization => "realizes"
  | .serving => "serves"
  | .access => "accesses"
  | .influence => "influences"
  | .triggering => "triggers"
  | .flow => "flows to"
  | .specialization => "specializes"
  | .association => "associates with"
  | .junction => "joins with"

/-- `RelationshipXmlGenerator.generateRelationshipName`. -/
def generateRelationshipName (relationship : Relationship)
    (options : RelationshipGenerationOptions) (elements : Option (List BaseElement)) :
    String :=
  if !options.includeNames then ""
  else
    match elements with
    | some es =>
        match es.find? (fun e => e.id == relationship.source),
              es.find? (fun e => e.id == relationship.target) with
        | some sourceElement, some targetElement =>
            sourceElement.name ++ " " ++ getRelationshipVerb relationship.type
              ++ " " ++ targetElement.name
        | _, _ => relationshipTypeTag relationship.type ++ " relationship"
    | none => relationshipTypeTag relationship.type ++ " relationship"

/-- `String.prototype.replace` with a string pattern: replace the first
occurrence only. -/
def replaceFirstList (pat replacement : List Char) : List Char → List Char
  | [] => []
  | c :: rest =>
      if pat.isPrefixOf (c :: rest) then replacement ++ (c :: rest).drop pat.length
      else c :: replaceFirstList pat replacement rest

/-- First-occurrence string replacement on strings. -/
def replaceFirst (s pat replacement : String) : String :=
  ⟨replaceFirstList pat.data replacement.data s.data⟩

/-- The relationship generator's `escapeXml` (it uses `&#39;` for
apostrophes, like the element generator's). -/
def escapeXmlRel (text : String) : String := escapeXml text

/-- `RelationshipXmlGenerator.generateRelationship`: optionally validate the
endpoint references (throwing on a dangling one), then substitute the
escaped fields into the template.  The template text is read from disk in
the source and is passed in here as a parameter. -/
def generateRelationship (template : String) (relationship : Relationship)
    (options : RelationshipGenerationOptions) (elements : Option (List BaseElement)) :
    Except String String := do
  if options.validateReferences then
    match elements with
    | some es => validateRelationshipReferences relationship es
    | none => pure ()
  else pure ()
  let relationshipName := generateRelationshipName relationship options elements
  pure (replaceFirst
    (replaceFirst
      (replaceFirst
        (replaceFirst
          (replaceFirst template "{{RELATIONSHIP_TYPE}}" (relationshipTypeTag relationship.type))
          "{{RELATIONSHIP_NAME}}" (escapeXmlRel relationshipName))
        "{{RELATIONSHIP_ID}}" (escapeXmlRel relationship.id))
      "{{SOURCE_ID}}" (escapeXmlRel relationship.source))
    "{{TARGET_ID}}" (escapeXmlRel relationship.target))

/-- `RelationshipXmlGenerator.findOrphanedRelationships`: ids of the
relationships either of whose endpoints is not a known element id. -/
def findOrphanedRelationships (relationships : List Relationship)
    (elements : List BaseElement) : List String :=
  let elementIds := elements.map BaseElement.id
  (relationships.filter (fun r =>
    !(elementIds.contains r.source) || !(elementIds.contains r.target))).map
    Relationship.id

/-! ## Exporter orchestration (src/xml-export/xml-exporter.ts) -/

/-- JavaScript whitespace trim on a character list (`String.prototype.trim`),
written structurally so it evaluates in the kernel. -/
def trimChars (s : List Char) : List Char :=
  ((s.dropWhile Char.isWhitespace).reverse.dropWhile Char.isWhitespace).reverse

/-- `!e.name || e.name.trim() === ''`: the name is absent or whitespace-only
(the empty string trims to the empty string, covering both disjuncts). -/
def blankName (s : String) : Bool :=
  (trimChars s.data).isEmpty

/-- The duplicate-id scan of `validateModelInputs`: walk the ids, pushing
every id already seen onto the duplicate list. -/
def duplicateScan (seen : List String) : List String → List String
  | [] => []
  | id :: rest =>
      if id ∈ seen then id :: duplicateScan seen rest
      else duplicateScan (seen ++ [id]) rest

/-- Warnings and errors collected by the pre-export validation. -/
structure ValidationIssues : Type where
  warnings : List String
  errors : List String
deriving DecidableEq

/-- `XmlExporter.validateModelInputs`: empty-model and orphaned-relationship
findings go to warnings (errors under strict mode); duplicate element and
relationship ids go to errors unconditionally; blank names go to warnings
unconditionally. -/
def validateModelInputs (elements : List BaseElement)
    (relationships : List Relationship) (strict : Bool) : ValidationIssues :=
  let warnings : List String := []
  let errors : List String := []
  let (warnings, errors) :=
    if elements.length = 0 then
      if strict then (warnings, errors ++ ["Model contains no elements"])
      else (warnings ++ ["Model contains no elements"], errors)
    else (warnings, errors)
  let orphanedRelationships := findOrphanedRelationships relationships elements
  let (warnings, errors) :=
    if orphanedRelationships.length > 0 then
      let message := "Found " ++ toString orphanedRelationships.length
        ++ " orphaned relationships: " ++ String.intercalate ", " orphanedRelationships
      if strict then (warnings, errors ++ [message])
      else (warnings ++ [message], errors)
    else (warnings, errors)
  let duplicateIds := duplicateScan [] (elements.map BaseElement.id)
  let errors :=
    if duplicateIds.length > 0 then
      errors ++ ["Duplicate element IDs found: " ++ String.intercalate ", " duplicateIds]
    else errors
  let duplicateRelIds := duplicateScan [] (relationships.map Relationship.id)
  let errors :=
    if duplicateRelIds.length > 0 then
      errors ++ ["Duplicate relationship IDs found: "
        ++ String.intercalate ", " duplicateRelIds]
    else errors
  let unnamedElements := elements.filter (fun e => blankName e.name)
  let warnings :=
    if unnamedElements.length > 0 then
      warnings ++ ["Found " ++ toString unnamedElements.length ++ " elements without names"]
    else warnings
  { warnings := warnings, errors := errors }

/-- The export options relevant to control flow (`XmlExportOptions`); theme,
layout and statistics options configure instance state consumed inside the
document-generation step, which is abstracted as the `gen` parameter of
`exportModel`. -/
structure XmlExportOptions : Type where
  validateModel : Bool := false
  strictValidation : Bool := false
deriving DecidableEq

/-- The export result (`XmlExportResult`), without the optional statistics
block (no claim concerns it). -/
structure XmlExportResult : Type where
  xml : String
  warnings : List String
  errors : List String
deriving DecidableEq

/-- `XmlExporter.exportModel`.  `gen` is the outcome of step 3 (the
`ModelXmlGenerator.generate` call), which may throw.  The `catch` block of
the source appends `"Export failed: " ++ message` to the *local* result's
error list and then rethrows the original error, discarding that local
result — so a step-3 exception propagates unchanged. -/
def exportModel (gen : Except String String) (elements : List BaseElement)
    (relationships : List Relationship) (options : XmlExportOptions) :
    Except String XmlExportResult :=
  let issues :=
    if options.validateModel then
      validateModelInputs elements relationships options.strictValidation
    else { warnings := [], errors := [] }
  if options.validateModel && !issues.errors.isEmpty && options.strictValidation then
    .error ("Model validation failed: " ++ String.intercalate ", " issues.errors)
  else
    match gen with
    | .error m => .error m
    | .ok xml => .ok { xml := xml, warnings := issues.warnings, errors := issues.errors }

/-- Substring containment test, used to state that a raised error message
does not carry the export-failed wrapper. -/
def containsSub (s pat : List Char) : Bool :=
  match s with
  | [] => pat.isEmpty
  | _ :: rest => pat.isPrefixOf s || containsSub rest pat

/-- Substring containment on strings. -/
def strContains (s pat : String) : Bool :=
  containsSub s.data pat.data

/-! ## Association-list lemmas -/

theorem aget_mset_self {κ α : Type} [DecidableEq κ] (k : κ) (v : α) :
    ∀ m : List (κ × α), aget k (mset k v m) = some v := by
  intro m
  induction m with
  | nil => simp [mset, aget]
  | cons kv rest ih =>
      obtain ⟨k₁, v₁⟩ := kv
      by_cases h : k₁ = k
      · simp [mset, h, aget]
      · simp [mset, h, aget, ih]

theorem aget_mset_ne {κ α : Type} [DecidableEq κ] {k k₁ : κ} (v : α)
    (h : k₁ ≠ k) : ∀ m : List (κ × α), aget k (mset k₁ v m) = aget k m := by
  intro m
  induction m with
  | nil => simp [mset, aget, h]
  | cons kv rest ih =>
      obtain ⟨k₂, v₂⟩ := kv
      by_cases h₂ : k₂ = k₁
      · subst h₂
        simp [mset, aget, h]
      · by_cases h₃ : k₂ = k
        · subst h₃
          simp [mset, h₂, aget]
        · simp [mset, h₂, aget, h₃, ih]

theorem mem_of_mem_mset {κ α : Type} [DecidableEq κ] {k : κ} {v : α}
    {kv : κ × α} : ∀ {m : List (κ × α)}, kv ∈ mset k v m → kv = (k, v) ∨ kv ∈ m := by
  intro m
  induction m with
  | nil => simp [mset]
  | cons kv₁ rest ih =>
      obtain ⟨k₁, v₁⟩ := kv₁
      by_cases h : k₁ = k
      · subst h
        intro h₂
        have hms : mset k₁ v ((k₁, v₁) :: rest) = (k₁, v) :: rest := by simp [mset]
        rw [hms] at h₂
        rcases List.mem_cons.mp h₂ with h₃ | h₃
        · exact Or.inl h₃
        · exact Or.inr (List.mem_cons_of_mem _ h₃)
      · intro h₂
        have hms : mset k v ((k₁, v₁) :: rest) = (k₁, v₁) :: mset k v rest := by
          simp [mset, h]
        rw [hms] at h₂
        rcases List.mem_cons.mp h₂ with h₃ | h₃
        · exact Or.inr (h₃ ▸ List.mem_cons_self _ _)
        · rcases ih h₃ with h₄ | h₄
          · exact Or.inl h₄
          · exact Or.inr (List.mem_cons_of_mem _ h₄)

theorem mem_of_aget_eq_some {κ α : Type} [DecidableEq κ] {k : κ} {v : α} :
    ∀ {m : List (κ × α)}, aget k m = some v → (k, v) ∈ m := by
  intro m
  induction m with
  | nil => simp [aget]
  | cons kv rest ih =>
      obtain ⟨k₁, v₁⟩ := kv
      by_cases h : k₁ = k
      · subst h
        intro h₂
        have h₃ : v₁ = v := by simpa [aget] using h₂
        subst h₃
        exact List.mem_cons_self _ _
      · intro h₂
        have h₃ : aget k rest = some v := by simpa [aget, h] using h₂
        exact List.mem_cons_of_mem _ (ih h₃)

/-- The key set of an association list. -/
def akeys {κ α : Type} (m : List (κ × α)) : List κ := m.map Prod.fst

theorem aget_isSome_iff_mem_akeys {κ α : Type} [DecidableEq κ] (k : κ) :
    ∀ m : List (κ × α), (aget k m).isSome ↔ k ∈ akeys m := by
  intro m
  induction m with
  | nil => simp [aget, akeys]
  | cons kv rest ih =>
      obtain ⟨k₁, v₁⟩ := kv
      by_cases h : k₁ = k
      · subst h
        simp [aget, akeys]
      · simp [aget, h, akeys, ih, Ne.symm h]

theorem aget_eq_none_iff_not_mem_akeys {κ α : Type} [DecidableEq κ] (k : κ)
    (m : List (κ × α)) : aget k m = none ↔ k ∉ akeys m := by
  rw [← aget_isSome_iff_mem_akeys]
  cases h : aget k m <;> simp [h]

theorem akeys_mset {κ α : Type} [DecidableEq κ] (k : κ) (v : α) :
    ∀ m : List (κ × α), k ∈ akeys m → akeys (mset k v m) = akeys m := by
  intro m
  induction m with
  | nil => simp [akeys]
  | cons kv rest ih =>
      obtain ⟨k₁, v₁⟩ := kv
      by_cases h : k₁ = k
      · subst h
        intro _
        simp [mset, akeys]
      · simp only [akeys, List.map_cons, List.mem_cons]
        rintro (rfl | h₂)
        · exact absurd rfl h
        · have h₃ := ih h₂
          simp only [akeys] at h₃
          simp [mset, h, akeys, h₃]

theorem akeys_mset_not_mem {κ α : Type} [DecidableEq κ] (k : κ) (v : α) :
    ∀ m : List (κ × α), k ∉ akeys m → akeys (mset k v m) = akeys m ++ [k] := by
  intro m
  induction m with
  | nil => simp [mset, akeys]
  | cons kv rest ih =>
      obtain ⟨k₁, v₁⟩ := kv
      simp only [akeys, List.map_cons, List.mem_cons, not_or] at *
      rintro ⟨h₁, h₂⟩
      simp [mset, Ne.symm h₁, akeys, ih h₂]

theorem nodup_akeys_mset {κ α : Type} [DecidableEq κ] (k : κ) (v : α)
    (m : List (κ × α)) (h : (akeys m).Nodup) : (akeys (mset k v m)).Nodup := by
  by_cases hk : k ∈ akeys m
  · rw [akeys_mset k v m hk]; exact h
  · rw [akeys_mset_not_mem k v m hk]
    simpa [List.nodup_append] using ⟨h, hk⟩

/-- Merging an association list entry-by-entry (`foldl` over `mset`) leaves
keys outside the merged list untouched. -/
theorem aget_foldl_mset_not_mem {κ α : Type} [DecidableEq κ] {k : κ} :
    ∀ (entries : List (κ × α)) (m : List (κ × α)), k ∉ akeys entries →
      aget k (entries.foldl (fun acc kv => mset kv.1 kv.2 acc) m) = aget k m := by
  intro entries
  induction entries with
  | nil => intro m _; rfl
  | cons kv rest ih =>
      obtain ⟨k₁, v₁⟩ := kv
      intro m h
      simp only [akeys, List.map_cons, List.mem_cons, not_or] at h
      simp only [List.foldl_cons]
      rw [ih _ h.2, aget_mset_ne _ (Ne.symm h.1)]

/-- Merging an association list with nodup keys retrieves the merged
binding. -/
theorem aget_foldl_mset_mem {κ α : Type} [DecidableEq κ] {k : κ} {v : α} :
    ∀ (entries : List (κ × α)) (m : List (κ × α)), (akeys entries).Nodup →
      (k, v) ∈ entries →
      aget k (entries.foldl (fun acc kv => mset kv.1 kv.2 acc) m) = some v := by
  intro entries
  induction entries with
  | nil => simp
  | cons kv rest ih =>
      obtain ⟨k₁, v₁⟩ := kv
      intro m hnodup hmem
      simp only [akeys, List.map_cons, List.nodup_cons] at hnodup
      rcases List.mem_cons.mp hmem with h | h
      · injection h with hk hv
        subst hk
        subst hv
        have hk : k ∉ akeys rest := by
          simpa [akeys] using hnodup.1
        simp only [List.foldl_cons]
        rw [aget_foldl_mset_not_mem rest _ hk, aget_mset_self]
      · simp only [List.foldl_cons]
        exact ih _ hnodup.2 h

/-! ## C5: the connection-aware entry point equals the basic layout -/

/-- C5: `generateRelationshipAwareLayout` returns exactly the result of
`generateLayout` on the same input — its refinement pass
(`optimizeForConnections`) returns the positions unchanged, so the two
entry points agree on positions, dimensions and viewport size. -/
theorem relationshipAwareLayout_eq_generateLayout
    (config : LayoutConfiguration) (elements : List BaseElement)
    (relationships : List Relationship) :
    generateRelationshipAwareLayout config elements relationships =
      generateLayout config elements relationships := rfl

/-! ## C3: layout determinism -/

/-- C3: `generateLayout` is a pure function of its input — two calls on
identical elements, relationships and configuration return identical
element positions, identical element dimensions and an identical viewport
size. -/
theorem generateLayout_deterministic
    (config₁ config₂ : LayoutConfiguration) (elements₁ elements₂ : List BaseElement)
    (relationships₁ relationships₂ : List Relationship)
    (hconfig : config₁ = config₂) (helements : elements₁ = elements₂)
    (hrelationships : relationships₁ = relationships₂) :
    (generateLayout config₁ elements₁ relationships₁).elementPositions =
      (generateLayout config₂ elements₂ relationships₂).elementPositions
    ∧ (generateLayout config₁ elements₁ relationships₁).elementDimensions =
      (generateLayout config₂ elements₂ relationships₂).elementDimensions
    ∧ (generateLayout config₁ elements₁ relationships₁).viewportWidth =
      (generateLayout config₂ elements₂ relationships₂).viewportWidth
    ∧ (generateLayout config₁ elements₁ relationships₁).viewportHeight =
      (generateLayout config₂ elements₂ relationships₂).viewportHeight := by
  subst hconfig helements hrelationships
  exact ⟨rfl, rfl, rfl, rfl⟩

/-- Witness for C3 at a concrete input. -/
theorem generateLayout_deterministic_witness :
    (generateLayout defaultLayoutConfiguration
        [⟨"a", "Customer", .businessActor, .business⟩] []).elementPositions =
      (generateLayout defaultLayoutConfiguration
        [⟨"a", "Customer", .businessActor, .business⟩] []).elementPositions := by
  exact (generateLayout_deterministic defaultLayoutConfiguration defaultLayoutConfiguration
    [⟨"a", "Customer", .businessActor, .business⟩]
    [⟨"a", "Customer", .businessActor, .business⟩] [] [] rfl rfl rfl).1

/-! ## C1: the validator reports exactly the matrix-disallowed relationships -/

/-- The id-keyed element map `validate` builds
(`new Map(elements.map(e => [e.id, e]))`). -/
def elementIdMap (elements : List BaseElement) : List (String × BaseElement) :=
  mapOf (elements.map (fun e => (e.id, e)))

/-- The matrix lookup `validationMatrix.get(s)?.get(t)`. -/
def matrixAllowed (s t : ElementType) : Option (List RelationshipType) :=
  (aget s validationMatrix).bind (fun m => aget t m)

/-- The claim's condition on a resolvable relationship: the Compatibility
Matrix has no entry for the ordered type pair, or the relationship type is
not a member of that entry's allowed set. -/
def matrixDisallows (s t : ElementType) (rt : RelationshipType) : Prop :=
  matrixAllowed s t = none ∨
    ∃ allowed, matrixAllowed s t = some allowed ∧ rt ∉ allowed

/-- The violations a single relationship contributes to `validate`'s
output. -/
def violationsFor (elements : List BaseElement) (relationship : Relationship) :
    List ValidationError :=
  match aget relationship.source (elementIdMap elements),
        aget relationship.target (elementIdMap elements) with
  | some source, some target =>
      match matrixAllowed source.type target.type with
      | none => [mkViolation source target relationship]
      | some allowedRelationships =>
          if relationship.type ∈ allowedRelationships then []
          else [mkViolation source target relationship]
  | _, _ => []

theorem foldl_step_append {α β : Type} (g : List β → α → List β) (f : α → List β)
    (hg : ∀ acc x, g acc x = acc ++ f x) :
    ∀ (l : List α) (init : List β), l.foldl g init = init ++ l.flatMap f := by
  intro l
  induction l with
  | nil => intro init; simp
  | cons a rest ih =>
      intro init
      rw [List.foldl_cons, hg, ih, List.flatMap_cons, List.append_assoc]

/-- `validate` decomposes into the per-relationship contributions. -/
theorem validate_eq_flatMap (elements : List BaseElement)
    (relationships : List Relationship) :
    validate elements relationships = relationships.flatMap (violationsFor elements) := by
  have hbody : (fun (errors : List ValidationError) (relationship : Relationship) =>
      match aget relationship.source (mapOf (elements.map (fun e => (e.id, e)))),
            aget relationship.target (mapOf (elements.map (fun e => (e.id, e)))) with
      | some source, some target =>
          match (aget source.type validationMatrix).bind (fun m => aget target.type m) with
          | none => errors ++ [mkViolation source target relationship]
          | some allowedRelationships =>
              if relationship.type ∈ allowedRelationships then errors
              else errors ++ [mkViolation source target relationship]
      | _, _ => errors)
      = fun errors relationship => errors ++ violationsFor elements relationship := by
    funext errors relationship
    rcases hs : aget relationship.source (mapOf (elements.map (fun e => (e.id, e)))) with
      _ | source <;>
      rcases ht : aget relationship.target (mapOf (elements.map (fun e => (e.id, e)))) with
        _ | target <;>
      simp only [violationsFor, elementIdMap, matrixAllowed, hs, ht, List.append_nil]
    rcases hma : (aget source.type validationMatrix).bind (fun m => aget target.type m) with
      _ | allowed
    · simp only [hma]
    · simp only [hma]
      by_cases hmem : relationship.type ∈ allowed
      · simp [hmem]
      · simp [hmem]
  simp only [validate]
  rw [hbody, foldl_step_append _ _ (fun _ _ => rfl), List.nil_append]

/-- Every violation contributed by a relationship carries that
relationship. -/
theorem violationsFor_relationship (elements : List BaseElement)
    (r : Relationship) : ∀ v ∈ violationsFor elements r, v.relationship = r := by
  intro v hv
  unfold violationsFor at hv
  rcases hs : aget r.source (elementIdMap elements) with _ | source <;>
    rcases ht : aget r.target (elementIdMap elements) with _ | target <;>
    simp only [hs, ht] at hv
  · simp at hv
  · simp at hv
  · simp at hv
  rcases hma : matrixAllowed source.type target.type with _ | allowed <;>
    simp only [hma] at hv
  · simp at hv
    simp [hv, mkViolation]
  · by_cases hmem : r.type ∈ allowed <;> simp [hmem] at hv
    simp [hv, mkViolation]

/-- Counting the violations that carry a given relationship. -/
theorem countP_validate (elements : List BaseElement)
    (relationships : List Relationship) (r : Relationship) :
    (validate elements relationships).countP (fun v => v.relationship == r) =
      relationships.count r * (violationsFor elements r).length := by
  rw [validate_eq_flatMap]
  induction relationships with
  | nil => simp
  | cons r' rest ih =>
      rw [List.flatMap_cons, List.countP_append, ih]
      by_cases h : r' = r
      · subst h
        have hall : (violationsFor elements r').countP (fun v => v.relationship == r') =
            (violationsFor elements r').length := by
          rw [List.countP_eq_length]
          intro v hv
          simp [violationsFor_relationship elements r' v hv]
        rw [hall]
        simp [List.count_cons, Nat.succ_mul, Nat.add_comm]
      · have hzero : (violationsFor elements r').countP (fun v => v.relationship == r) = 0 := by
          rw [List.countP_eq_zero]
          intro v hv
          simp [violationsFor_relationship elements r' v hv, h]
        rw [hzero]
        simp [List.count_cons, h]

/-- C1: for every call `validate(elements, relationships)`, a relationship
`r` occurring once in the input whose source and target ids both resolve
contributes exactly one violation iff the Compatibility Matrix has no entry
for the ordered pair of the resolved source/target types or `r`'s type is
not a member of that entry's allowed set; a relationship with an
unresolvable endpoint contributes no violation. -/
theorem validate_reports_iff (elements : List BaseElement)
    (relationships : List Relationship) (r : Relationship)
    (hcount : relationships.count r = 1) :
    (∀ source target, aget r.source (elementIdMap elements) = some source →
      aget r.target (elementIdMap elements) = some target →
      (((validate elements relationships).countP (fun v => v.relationship == r) = 1) ↔
        matrixDisallows source.type target.type r.type))
    ∧ ((aget r.source (elementIdMap elements) = none ∨
        aget r.target (elementIdMap elements) = none) →
      (validate elements relationships).countP (fun v => v.relationship == r) = 0) := by
  have hbase := countP_validate elements relationships r
  rw [hcount, Nat.one_mul] at hbase
  constructor
  · intro source target hsource htarget
    rw [hbase]
    unfold violationsFor
    simp only [hsource, htarget]
    rcases hma : matrixAllowed source.type target.type with _ | allowed
    · simp only [hma, List.length_singleton]
      simpa [matrixDisallows, hma] using Or.inl rfl
    · simp only [hma]
      by_cases hmem : r.type ∈ allowed
      · simp only [if_pos hmem, List.length_nil]
        constructor
        · intro h; exact absurd h (by simp)
        · rintro (h | ⟨allowed', h₁, h₂⟩)
          · rw [hma] at h; exact absurd h (by simp)
          · rw [hma] at h₁
            injection h₁ with h₁
            subst h₁
            exact absurd hmem h₂
      · simp only [if_neg hmem, List.length_singleton]
        constructor
        · intro _
          exact Or.inr ⟨allowed, hma, hmem⟩
        · intro _; trivial
  · intro hnone
    rw [hbase]
    unfold violationsFor
    rcases hnone with hnone | hnone
    · simp only [hnone]
      rcases ht : aget r.target (elementIdMap elements) with _ | target <;> simp
    · simp only [hnone]
      rcases hs : aget r.source (elementIdMap elements) with _ | source <;> simp

/-- Witness for C1: the end-to-end pair (BusinessActor "a", BusinessProcess
"b") with a Triggering relationship, which the sparse matrix does not
list. -/
theorem validate_reports_iff_witness :
    ((validate [⟨"a", "Customer", .businessActor, .business⟩,
        ⟨"b", "Order Processing", .businessProcess, .business⟩]
        [⟨"r1", "a", "b", .triggering⟩]).countP
      (fun v => v.relationship == ⟨"r1", "a", "b", .triggering⟩) = 1) ↔
      matrixDisallows .businessActor .businessProcess .triggering :=
  (validate_reports_iff
    [⟨"a", "Customer", .businessActor, .business⟩,
     ⟨"b", "Order Processing", .businessProcess, .business⟩]
    [⟨"r1", "a", "b", .triggering⟩] ⟨"r1", "a", "b", .triggering⟩ (by decide)).1
    ⟨"a", "Customer", .businessActor, .business⟩
    ⟨"b", "Order Processing", .businessProcess, .business⟩ (by decide) (by decide)

/-! ## C2: classification of the pre-export checks -/

/-- The empty-model message list of `validateModelInputs`. -/
def emptyModelMessages (elements : List BaseElement) : List String :=
  if elements.length = 0 then ["Model contains no elements"] else []

/-- The orphaned-relationship message list of `validateModelInputs`. -/
def orphanMessages (elements : List BaseElement)
    (relationships : List Relationship) : List String :=
  let orphanedRelationships := findOrphanedRelationships relationships elements
  if orphanedRelationships.length > 0 then
    ["Found " ++ toString orphanedRelationships.length
      ++ " orphaned relationships: " ++ String.intercalate ", " orphanedRelationships]
  else []

/-- The duplicate-element-id message list of `validateModelInputs`. -/
def duplicateElementMessages (elements : List BaseElement) : List String :=
  let duplicateIds := duplicateScan [] (elements.map BaseElement.id)
  if duplicateIds.length > 0 then
    ["Duplicate element IDs found: " ++ String.intercalate ", " duplicateIds]
  else []

/-- The duplicate-relationship-id message list of `validateModelInputs`. -/
def duplicateRelationshipMessages (relationships : List Relationship) : List String :=
  let duplicateRelIds := duplicateScan [] (relationships.map Relationship.id)
  if duplicateRelIds.length > 0 then
    ["Duplicate relationship IDs found: " ++ String.intercalate ", " duplicateRelIds]
  else []

/-- The blank-name message list of `validateModelInputs`. -/
def unnamedMessages (elements : List BaseElement) : List String :=
  let unnamedElements := elements.filter (fun e => blankName e.name)
  if unnamedElements.length > 0 then
    ["Found " ++ toString unnamedElements.length ++ " elements without names"]
  else []

/-- Closed form of the classification `validateModelInputs` performs:
empty-model and orphan findings go to warnings exactly when strict mode is
off and to errors exactly when it is on, duplicate-id findings go to errors
unconditionally, and blank-name findings go to warnings unconditionally. -/
theorem validateModelInputs_spec (elements : List BaseElement)
    (relationships : List Relationship) (strict : Bool) :
    (validateModelInputs elements relationships strict).warnings =
      (if strict then []
       else emptyModelMessages elements ++ orphanMessages elements relationships)
        ++ unnamedMessages elements
    ∧ (validateModelInputs elements relationships strict).errors =
      (if strict then emptyModelMessages elements ++ orphanMessages elements relationships
       else [])
        ++ duplicateElementMessages elements
        ++ duplicateRelationshipMessages relationships := by
  cases strict <;>
    simp only [validateModelInputs, emptyModelMessages, orphanMessages,
      duplicateElementMessages, duplicateRelationshipMessages, unnamedMessages,
      if_true, if_false, Bool.false_eq_true] <;>
    split_ifs <;> simp_all

/-- C2 counterexample: two elements sharing id "x" with strict mode off.
The claim says this yields exactly one uniqueness **warning** naming "x";
the code instead reports no warning at all and puts the single uniqueness
message in the **errors** list. -/
theorem duplicate_id_counterexample :
    (validateModelInputs
        [⟨"x", "A", .businessActor, .business⟩, ⟨"x", "B", .businessRole, .business⟩]
        [] false).warnings = []
    ∧ (validateModelInputs
        [⟨"x", "A", .businessActor, .business⟩, ⟨"x", "B", .businessRole, .business⟩]
        [] false).errors = ["Duplicate element IDs found: x"] := by
  constructor <;> rfl

/-- C2 amended: orphaned-relationship and empty-element-set findings are
warnings when strict mode is off and become blocking errors when it is on;
duplicate element ids and duplicate relationship ids are classified as
errors regardless of strict mode, but abort the export (before any document
is produced) only when strict mode is on; blank-name findings stay warnings
even in strict mode.  In particular, two elements sharing id "x" (with
non-blank names) yield exactly one uniqueness error naming "x" — and no
warning — even when strict mode is off. -/
theorem validateModelInputs_classification (elements : List BaseElement)
    (relationships : List Relationship) :
    ((validateModelInputs elements relationships false).warnings =
        emptyModelMessages elements ++ orphanMessages elements relationships
          ++ unnamedMessages elements)
    ∧ ((validateModelInputs elements relationships false).errors =
        duplicateElementMessages elements ++ duplicateRelationshipMessages relationships)
    ∧ ((validateModelInputs elements relationships true).warnings = unnamedMessages elements)
    ∧ ((validateModelInputs elements relationships true).errors =
        emptyModelMessages elements ++ orphanMessages elements relationships
          ++ duplicateElementMessages elements
          ++ duplicateRelationshipMessages relationships)
    ∧ ((validateModelInputs elements relationships true).errors ≠ [] →
        ∀ gen, exportModel gen elements relationships
            { validateModel := true, strictValidation := true } =
          .error ("Model validation failed: "
            ++ String.intercalate ", " (validateModelInputs elements relationships true).errors))
    ∧ (∀ xml, exportModel (.ok xml) elements relationships
          { validateModel := true, strictValidation := false } =
        .ok { xml := xml
              warnings := (validateModelInputs elements relationships false).warnings
              errors := (validateModelInputs elements relationships false).errors })
    ∧ (∀ e₁ e₂ : BaseElement, e₁.id = "x" → e₂.id = "x" →
        blankName e₁.name = false → blankName e₂.name = false →
        validateModelInputs [e₁, e₂] [] false =
          { warnings := [], errors := ["Duplicate element IDs found: x"] }) := by
  refine ⟨?_, ?_, ?_, ?_, ?_, ?_, ?_⟩
  · simpa using (validateModelInputs_spec elements relationships false).1
  · simpa using (validateModelInputs_spec elements relationships false).2
  · simpa using (validateModelInputs_spec elements relationships true).1
  · simpa [List.append_assoc] using (validateModelInputs_spec elements relationships true).2
  · intro herr gen
    cases hE : (validateModelInputs elements relationships true).errors with
    | nil => exact absurd hE herr
    | cons a t => simp [exportModel, hE]
  · intro xml
    simp [exportModel]
  · intro e₁ e₂ h₁ h₂ hb₁ hb₂
    simp [validateModelInputs, findOrphanedRelationships, duplicateScan, h₁, h₂,
      hb₁, hb₂]
    rfl

/-- Witness for the amended C2 on a concrete duplicate-id model. -/
theorem validateModelInputs_classification_witness :
    validateModelInputs
        [⟨"x", "A", .businessActor, .business⟩, ⟨"x", "B", .businessRole, .business⟩]
        [] false =
      { warnings := [], errors := ["Duplicate element IDs found: x"] } :=
  (validateModelInputs_classification
      [⟨"x", "A", .businessActor, .business⟩, ⟨"x", "B", .businessRole, .business⟩]
      []).2.2.2.2.2.2
    ⟨"x", "A", .businessActor, .business⟩ ⟨"x", "B", .businessRole, .business⟩
    rfl rfl (by decide) (by decide)

/-! ## C9: a step-3 exception propagates unchanged -/

/-- C9 counterexample: a step-3 exception with message "boom" propagates as
the error "boom" — the raised error does not carry the contextual
"Export failed" message (that message is appended only to the discarded
local result object). -/
theorem exportModel_counterexample :
    exportModel (.error "boom") [] [] { validateModel := false, strictValidation := false } =
      .error "boom"
    ∧ strContains "boom" "Export failed" = false := by
  constructor <;> rfl

/-- C9 amended: whenever control reaches step 3 (document generation) and
that step raises, `exportModel` terminates by re-raising the **original**
error unchanged — the "Export failed: …" wrapper is recorded only on the
local result object, which is discarded — and no result containing a
partial document is ever returned to the caller. -/
theorem exportModel_rethrows_original (gen : Except String String)
    (elements : List BaseElement) (relationships : List Relationship)
    (options : XmlExportOptions) (m : String) (hgen : gen = Except.error m)
    (hnoabort : (options.validateModel
        && !(validateModelInputs elements relationships options.strictValidation).errors.isEmpty
        && options.strictValidation) = false) :
    exportModel gen elements relationships options = Except.error m
    ∧ ∀ result, exportModel gen elements relationships options ≠ Except.ok result := by
  subst hgen
  obtain ⟨vm, sv⟩ := options
  cases vm
  · refine ⟨by simp [exportModel], ?_⟩
    intro result
    simp [exportModel]
  · simp only [Bool.true_and] at hnoabort
    refine ⟨?_, ?_⟩
    · simp [exportModel, hnoabort]
    · intro result
      simp [exportModel, hnoabort]

/-- Witness for the amended C9. -/
theorem exportModel_rethrows_original_witness :
    exportModel (.error "boom") [] []
        { validateModel := false, strictValidation := false } = Except.error "boom"
    ∧ ∀ result, exportModel (.error "boom") [] []
        { validateModel := false, strictValidation := false } ≠ Except.ok result :=
  exportModel_rethrows_original (.error "boom") [] []
    { validateModel := false, strictValidation := false } "boom" rfl (by decide)

/-! ## C7: reference validation in the relationship generator fails hard -/

/-- C7: when reference validation is requested and an element set is
supplied, a relationship with a dangling source (resp. target) id makes
`generateRelationship` raise an error naming the relationship and the
missing id instead of skipping it; with both ids resolvable, or when
reference validation is not requested, or when no element set is supplied,
no such error is raised. -/
theorem generateRelationship_reference_errors (template : String)
    (r : Relationship) (options : RelationshipGenerationOptions)
    (es : List BaseElement) :
    (options.validateReferences = true →
      (r.source ∉ es.map BaseElement.id →
        generateRelationship template r options (some es) =
          .error ("Relationship " ++ r.id
            ++ " references non-existent source element: " ++ r.source))
      ∧ (r.source ∈ es.map BaseElement.id → r.target ∉ es.map BaseElement.id →
        generateRelationship template r options (some es) =
          .error ("Relationship " ++ r.id
            ++ " references non-existent target element: " ++ r.target))
      ∧ (r.source ∈ es.map BaseElement.id → r.target ∈ es.map BaseElement.id →
        ∃ s, generateRelationship template r options (some es) = .ok s))
    ∧ (options.validateReferences = false →
      ∃ s, generateRelationship template r options (some es) = .ok s)
    ∧ (∃ s, generateRelationship template r options none = .ok s) := by
  refine ⟨fun hval => ⟨?_, ?_, ?_⟩, fun hval => ?_, ?_⟩
  · intro hsrc
    simp [generateRelationship, hval, validateRelationshipReferences, hsrc]
  · intro hsrc htgt
    simp [generateRelationship, hval, validateRelationshipReferences, hsrc, htgt]
  · intro hsrc htgt
    simp only [generateRelationship, hval, validateRelationshipReferences, if_true]
    rw [if_neg (not_not_intro hsrc), if_neg (not_not_intro htgt)]
    exact ⟨_, rfl⟩
  · simp only [generateRelationship, hval, Bool.false_eq_true, if_false]
    exact ⟨_, rfl⟩
  · rcases hval : options.validateReferences with _ | _
    · simp only [generateRelationship, hval, Bool.false_eq_true, if_false]
      exact ⟨_, rfl⟩
    · simp only [generateRelationship, hval, if_true]
      exact ⟨_, rfl⟩

/-- Witness for C7: a dangling source on the one-element set ["a"]. -/
theorem generateRelationship_reference_errors_witness :
    generateRelationship "tpl" ⟨"r1", "ghost", "a", .flow⟩
        { validateReferences := true } (some [⟨"a", "A", .businessActor, .business⟩]) =
      .error "Relationship r1 references non-existent source element: ghost" :=
  ((generateRelationship_reference_errors "tpl" ⟨"r1", "ghost", "a", .flow⟩
      { validateReferences := true } [⟨"a", "A", .businessActor, .business⟩]).1
    rfl).1 (by decide)

/-! ## C6 and C10: visual shapes and connections -/

/-- The center of a visual shape, as `calculateBendpoints` computes it. -/
def visualCenter (v : VisualElement) : BendPoint :=
  { x := (v.x : ℚ) + (v.width : ℚ) / 2, y := (v.y : ℚ) + (v.height : ℚ) / 2 }

/-- Squared Euclidean distance between two points. -/
def centerDistSq (a b : BendPoint) : ℚ :=
  (b.x - a.x) ^ 2 + (b.y - a.y) ^ 2

/-- The midpoint of the segment between two points. -/
def midpointOf (a b : BendPoint) : BendPoint :=
  { x := (a.x + b.x) / 2, y := (a.y + b.y) / 2 }

/-- `calculateBendpoints` in terms of the named center/midpoint helpers:
one midpoint bend point when the squared center distance exceeds 200²
(equivalently, when the Euclidean distance exceeds 200), none otherwise. -/
theorem calculateBendpoints_spec (s t : VisualElement) :
    (centerDistSq (visualCenter s) (visualCenter t) > 200 ^ 2 →
      calculateBendpoints s t = some [midpointOf (visualCenter s) (visualCenter t)])
    ∧ (¬ centerDistSq (visualCenter s) (visualCenter t) > 200 ^ 2 →
      calculateBendpoints s t = none) := by
  unfold calculateBendpoints visualCenter centerDistSq midpointOf
  constructor
  · intro h
    rw [if_pos h]
  · intro h
    rw [if_neg h]

/-- A successful `mapE` collects exactly the per-item successes. -/
theorem mapE_ok_mem {α β : Type} (f : α → Except String β) :
    ∀ (l : List α) (out : List β), mapE f l = .ok out →
      ∀ b ∈ out, ∃ a ∈ l, f a = .ok b := by
  intro l
  induction l with
  | nil =>
      intro out h b hb
      simp only [mapE, Except.ok.injEq] at h
      subst h
      simp at hb
  | cons a rest ih =>
      intro out h b hb
      rcases hfa : f a with e | b₀ <;> rw [mapE, hfa] at h
      · exact absurd h (by simp)
      · rcases hrest : mapE f rest with e | bs <;> rw [hrest] at h
        · exact absurd h (by simp)
        · simp only [Except.ok.injEq] at h
          subst h
          rcases List.mem_cons.mp hb with hb | hb
          · subst hb
            exact ⟨a, List.mem_cons_self _ _, hfa⟩
          · obtain ⟨a', ha', hfa'⟩ := ih bs hrest b hb
            exact ⟨a', List.mem_cons_of_mem _ ha', hfa'⟩

/-- `mapE` succeeds exactly when every item succeeds. -/
theorem mapE_ok_iff {α β : Type} (f : α → Except String β) :
    ∀ l : List α, (∃ out, mapE f l = .ok out) ↔ ∀ a ∈ l, ∃ b, f a = .ok b := by
  intro l
  induction l with
  | nil => simp [mapE]
  | cons a rest ih =>
      constructor
      · rintro ⟨out, h⟩ a' ha'
        rcases hfa : f a with e | b₀ <;> rw [mapE, hfa] at h
        · exact absurd h (by simp)
        · rcases hrest : mapE f rest with e | bs <;> rw [hrest] at h
          · exact absurd h (by simp)
          · rcases List.mem_cons.mp ha' with ha' | ha'
            · subst ha'
              exact ⟨b₀, hfa⟩
            · exact (ih.mp ⟨bs, hrest⟩) a' ha'
      · intro h
        obtain ⟨b₀, hfa⟩ := h a (List.mem_cons_self _ _)
        obtain ⟨bs, hrest⟩ := ih.mpr (fun a' ha' => h a' (List.mem_cons_of_mem _ ha'))
        exact ⟨b₀ :: bs, by rw [mapE, hfa, hrest]⟩

/-- Key membership in the element-reference map `createVisualConnections`
builds from the visual shapes. -/
theorem aget_visualMap_isSome (k : String) :
    ∀ (visuals : List VisualElement) (m₀ : List (String × VisualElement)),
      (aget k (visuals.foldl (fun m ve => mset ve.elementRef ve m) m₀)).isSome ↔
        k ∈ visuals.map VisualElement.elementRef ∨ (aget k m₀).isSome := by
  intro visuals
  induction visuals with
  | nil => simp
  | cons ve rest ih =>
      intro m₀
      rw [List.foldl_cons, ih]
      by_cases h : ve.elementRef = k
      · subst h
        simp [aget_mset_self]
      · rw [aget_mset_ne _ h]
        simp [Ne.symm h, or_assoc]

/-- C6: every visual connection produced by `createVisualConnections` links
the shapes resolved for its relationship's endpoints and carries exactly
one bend point — the midpoint of the segment between the two shape
centers — when the squared center distance exceeds 200² (i.e. the
Euclidean distance exceeds 200 layout units), and no bend points
otherwise. -/
theorem visualConnection_bendpoints (relationships : List Relationship)
    (visualElements : List VisualElement) (conns : List VisualConnection)
    (h : createVisualConnections relationships visualElements = .ok conns)
    (c : VisualConnection) (hc : c ∈ conns) :
    ∃ r ∈ relationships, ∃ sourceVisual targetVisual,
      aget r.source (visualElements.foldl (fun m ve => mset ve.elementRef ve m) []) =
        some sourceVisual
      ∧ aget r.target (visualElements.foldl (fun m ve => mset ve.elementRef ve m) []) =
        some targetVisual
      ∧ c.source = sourceVisual.id ∧ c.target = targetVisual.id
      ∧ (centerDistSq (visualCenter sourceVisual) (visualCenter targetVisual) > 200 ^ 2 →
          c.bendpoints =
            some [midpointOf (visualCenter sourceVisual) (visualCenter targetVisual)])
      ∧ (¬ centerDistSq (visualCenter sourceVisual) (visualCenter targetVisual) > 200 ^ 2 →
          c.bendpoints = none) := by
  unfold createVisualConnections at h
  obtain ⟨r, hr, hok⟩ := mapE_ok_mem _ relationships conns h c hc
  refine ⟨r, hr, ?_⟩
  rcases hs : aget r.source (visualElements.foldl (fun m ve => mset ve.elementRef ve m) [])
    with _ | sourceVisual
  · rcases ht : aget r.target (visualElements.foldl (fun m ve => mset ve.elementRef ve m) [])
      with _ | targetVisual <;> rw [hs, ht] at hok <;> exact absurd hok (by simp)
  · rcases ht : aget r.target (visualElements.foldl (fun m ve => mset ve.elementRef ve m) [])
      with _ | targetVisual
    · rw [hs, ht] at hok
      exact absurd hok (by simp)
    · rw [hs, ht] at hok
      have hok' := Except.ok.inj hok
      subst hok'
      refine ⟨sourceVisual, targetVisual, hs, ht, rfl, rfl, ?_, ?_⟩
      · intro hdist
        exact (calculateBendpoints_spec sourceVisual targetVisual).1 hdist
      · intro hdist
        exact (calculateBendpoints_spec sourceVisual targetVisual).2 hdist

/-- Witness for C6: one relationship between two far-apart shapes. -/
theorem visualConnection_bendpoints_witness :
    ∃ r ∈ [(⟨"r", "a", "b", .flow⟩ : Relationship)], ∃ sourceVisual targetVisual,
      aget r.source
          ([⟨"visual-a", "a", 0, 0, 100, 100, "f", "l", "t"⟩,
            ⟨"visual-b", "b", 1000, 0, 100, 100, "f", "l", "t"⟩].foldl
            (fun m (ve : VisualElement) => mset ve.elementRef ve m) []) = some sourceVisual
      ∧ aget r.target
          ([⟨"visual-a", "a", 0, 0, 100, 100, "f", "l", "t"⟩,
            ⟨"visual-b", "b", 1000, 0, 100, 100, "f", "l", "t"⟩].foldl
            (fun m (ve : VisualElement) => mset ve.elementRef ve m) []) = some targetVisual
      ∧ ({ id := "connection-r", relationshipRef := "r", source := "visual-a",
           target := "visual-b",
           bendpoints := calculateBendpoints
             ⟨"visual-a", "a", 0, 0, 100, 100, "f", "l", "t"⟩
             ⟨"visual-b", "b", 1000, 0, 100, 100, "f", "l", "t"⟩,
           lineColor := "#000000", lineWidth := 1 } : VisualConnection).source =
          sourceVisual.id
      ∧ ({ id := "connection-r", relationshipRef := "r", source := "visual-a",
           target := "visual-b",
           bendpoints := calculateBendpoints
             ⟨"visual-a", "a", 0, 0, 100, 100, "f", "l", "t"⟩
             ⟨"visual-b", "b", 1000, 0, 100, 100, "f", "l", "t"⟩,
           lineColor := "#000000", lineWidth := 1 } : VisualConnection).target =
          targetVisual.id
      ∧ (centerDistSq (visualCenter sourceVisual) (visualCenter targetVisual) > 200 ^ 2 →
          ({ id := "connection-r", relationshipRef := "r", source := "visual-a",
             target := "visual-b",
             bendpoints := calculateBendpoints
               ⟨"visual-a", "a", 0, 0, 100, 100, "f", "l", "t"⟩
               ⟨"visual-b", "b", 1000, 0, 100, 100, "f", "l", "t"⟩,
             lineColor := "#000000", lineWidth := 1 } : VisualConnection).bendpoints =
            some [midpointOf (visualCenter sourceVisual) (visualCenter targetVisual)])
      ∧ (¬ centerDistSq (visualCenter sourceVisual) (visualCenter targetVisual) > 200 ^ 2 →
          ({ id := "connection-r", relationshipRef := "r", source := "visual-a",
             target := "visual-b",
             bendpoints := calculateBendpoints
               ⟨"visual-a", "a", 0, 0, 100, 100, "f", "l", "t"⟩
               ⟨"visual-b", "b", 1000, 0, 100, 100, "f", "l", "t"⟩,
             lineColor := "#000000", lineWidth := 1 } : VisualConnection).bendpoints =
            none) :=
  visualConnection_bendpoints [⟨"r", "a", "b", .flow⟩]
    [⟨"visual-a", "a", 0, 0, 100, 100, "f", "l", "t"⟩,
     ⟨"visual-b", "b", 1000, 0, 100, 100, "f", "l", "t"⟩]
    [{ id := "connection-r", relationshipRef := "r", source := "visual-a",
       target := "visual-b",
       bendpoints := calculateBendpoints
         ⟨"visual-a", "a", 0, 0, 100, 100, "f", "l", "t"⟩
         ⟨"visual-b", "b", 1000, 0, 100, 100, "f", "l", "t"⟩,
       lineColor := "#000000", lineWidth := 1 }]
    rfl _ (List.mem_cons_self _ _)

/-- C10: the view generator gives every element of the input array exactly
one visual shape (in order, referenced by the element's id), falling back
to position (100, 100) and size 120×55 when the layout produced no entry
for the element's id; consequently connection creation succeeds exactly
when every relationship's source and target ids are ids of elements in the
input array (and raises its "missing visual elements" error otherwise). -/
theorem createVisualElements_total (theme : List (ElementType × ColorMapping))
    (elements : List BaseElement) (layoutResult : LayoutResult)
    (relationships : List Relationship) :
    ((createVisualElements theme elements layoutResult).map VisualElement.elementRef =
      elements.map BaseElement.id)
    ∧ (∀ e ∈ elements,
        aget e.id layoutResult.elementPositions = none →
        aget e.id layoutResult.elementDimensions = none →
        ∃ ve ∈ createVisualElements theme elements layoutResult,
          ve.elementRef = e.id ∧ ve.x = 100 ∧ ve.y = 100 ∧ ve.width = 120 ∧ ve.height = 55)
    ∧ ((∃ out, createVisualConnections relationships
          (createVisualElements theme elements layoutResult) = .ok out) ↔
        ∀ r ∈ relationships, r.source ∈ elements.map BaseElement.id
          ∧ r.target ∈ elements.map BaseElement.id) := by
  have hrefs : (createVisualElements theme elements layoutResult).map
      VisualElement.elementRef = elements.map BaseElement.id := by
    simp [createVisualElements, Function.comp]
  refine ⟨hrefs, ?_, ?_⟩
  · intro e he hp hd
    refine ⟨_, List.mem_map_of_mem _ he, ?_⟩
    simp [createVisualElements, hp, hd]
  · rw [createVisualConnections, mapE_ok_iff]
    constructor
    · intro h r hr
      obtain ⟨b, hb⟩ := h r hr
      rcases hs : aget r.source ((createVisualElements theme elements layoutResult).foldl
          (fun m ve => mset ve.elementRef ve m) []) with _ | sourceVisual <;>
        rcases ht : aget r.target ((createVisualElements theme elements layoutResult).foldl
            (fun m ve => mset ve.elementRef ve m) []) with _ | targetVisual <;>
        rw [hs, ht] at hb
      · exact absurd hb (by simp)
      · exact absurd hb (by simp)
      · exact absurd hb (by simp)
      · have hsome₁ : (aget r.source ((createVisualElements theme elements
            layoutResult).foldl (fun m ve => mset ve.elementRef ve m) [])).isSome := by
          rw [hs]; rfl
        have hsome₂ : (aget r.target ((createVisualElements theme elements
            layoutResult).foldl (fun m ve => mset ve.elementRef ve m) [])).isSome := by
          rw [ht]; rfl
        rw [aget_visualMap_isSome, hrefs] at hsome₁ hsome₂
        simp only [aget, Option.isSome_none, Bool.false_eq_true, or_false] at hsome₁ hsome₂
        exact ⟨hsome₁, hsome₂⟩
    · intro h r hr
      obtain ⟨hsrc, htgt⟩ := h r hr
      have hsome₁ : (aget r.source ((createVisualElements theme elements
          layoutResult).foldl (fun m ve => mset ve.elementRef ve m) [])).isSome := by
        rw [aget_visualMap_isSome, hrefs]
        exact Or.inl hsrc
      have hsome₂ : (aget r.target ((createVisualElements theme elements
          layoutResult).foldl (fun m ve => mset ve.elementRef ve m) [])).isSome := by
        rw [aget_visualMap_isSome, hrefs]
        exact Or.inl htgt
      obtain ⟨sourceVisual, hs⟩ := Option.isSome_iff_exists.mp hsome₁
      obtain ⟨targetVisual, ht⟩ := Option.isSome_iff_exists.mp hsome₂
      simp only [hs, ht]
      exact ⟨_, rfl⟩

/-- Witness for C10: one in-layout element, one orphaned relationship. -/
theorem createVisualElements_total_witness :
    ∃ ve ∈ createVisualElements [] [⟨"a", "A", .businessActor, .business⟩]
        { elementPositions := [], elementDimensions := [],
          viewportWidth := 0, viewportHeight := 0 },
      ve.elementRef = "a" ∧ ve.x = 100 ∧ ve.y = 100 ∧ ve.width = 120 ∧ ve.height = 55 :=
  (createVisualElements_total [] [⟨"a", "A", .businessActor, .business⟩]
      { elementPositions := [], elementDimensions := [],
        viewportWidth := 0, viewportHeight := 0 } []).2.1
    ⟨"a", "A", .businessActor, .business⟩ (List.mem_cons_self _ _) rfl rfl

/-! ## C8: escaping round-trips -/

theorem replaceAllChar_cons (c : Char) (r : List Char) (x : Char) (xs : List Char) :
    replaceAllChar c r (x :: xs) = (if x = c then r else [x]) ++ replaceAllChar c r xs := by
  simp [replaceAllChar]

theorem replaceAllChar_append (c : Char) (r : List Char) (l₁ l₂ : List Char) :
    replaceAllChar c r (l₁ ++ l₂) = replaceAllChar c r l₁ ++ replaceAllChar c r l₂ := by
  simp [replaceAllChar]

/-- Pushing one character through the five sequential replacements yields
its entity. -/
theorem entity_step (x : Char) :
    replaceAllChar aposChar "&#39;".data
      (replaceAllChar '"' "&quot;".data
        (replaceAllChar '>' "&gt;".data
          (replaceAllChar '<' "&lt;".data
            (if x = '&' then "&amp;".data else [x])))) = entityOf x := by
  by_cases h₁ : x = '&'
  · subst h₁; rfl
  · by_cases h₂ : x = '<'
    · subst h₂; rfl
    · by_cases h₃ : x = '>'
      · subst h₃; rfl
      · by_cases h₄ : x = '"'
        · subst h₄; rfl
        · by_cases h₅ : x = aposChar
          · subst h₅; rfl
          · simp [replaceAllChar, entityOf, h₁, h₂, h₃, h₄, h₅]

/-- The five sequential global replacements act characterwise. -/
theorem escapeXmlList_eq_flatMap : ∀ l : List Char,
    escapeXmlList l = l.flatMap entityOf := by
  intro l
  induction l with
  | nil => rfl
  | cons x rest ih =>
      have h : escapeXmlList (x :: rest) =
          (replaceAllChar aposChar "&#39;".data
            (replaceAllChar '"' "&quot;".data
              (replaceAllChar '>' "&gt;".data
                (replaceAllChar '<' "&lt;".data
                  (if x = '&' then "&amp;".data else [x])))))
          ++ escapeXmlList rest := by
        unfold escapeXmlList
        rw [replaceAllChar_cons, replaceAllChar_append, replaceAllChar_append,
          replaceAllChar_append, replaceAllChar_append]
      rw [h, entity_step x, List.flatMap_cons, ih]

set_option maxHeartbeats 1600000 in
/-- Decoding steps over a non-ampersand head character. -/
theorem unescape_cons_ne (x : Char) (hx : x ≠ '&') (t : List Char) :
    unescapeXmlList (x :: t) = x :: unescapeXmlList t := by
  rw [unescapeXmlList.eq_def]
  split <;> simp_all

set_option maxHeartbeats 1600000 in
/-- `noRawAmp` steps over a non-ampersand head character. -/
theorem noRawAmp_cons_ne (x : Char) (hx : x ≠ '&') (t : List Char) :
    noRawAmp (x :: t) = noRawAmp t := by
  rw [noRawAmp.eq_def]
  split <;> simp_all

theorem unescape_step_amp (t : List Char) :
    unescapeXmlList ('&' :: 'a' :: 'm' :: 'p' :: ';' :: t) = '&' :: unescapeXmlList t := rfl

theorem unescape_step_lt (t : List Char) :
    unescapeXmlList ('&' :: 'l' :: 't' :: ';' :: t) = '<' :: unescapeXmlList t := rfl

theorem unescape_step_gt (t : List Char) :
    unescapeXmlList ('&' :: 'g' :: 't' :: ';' :: t) = '>' :: unescapeXmlList t := rfl

theorem unescape_step_quot (t : List Char) :
    unescapeXmlList ('&' :: 'q' :: 'u' :: 'o' :: 't' :: ';' :: t) =
      '"' :: unescapeXmlList t := rfl

theorem unescape_step_num39 (t : List Char) :
    unescapeXmlList ('&' :: '#' :: '3' :: '9' :: ';' :: t) =
      Char.ofNat 39 :: unescapeXmlList t := rfl

theorem noRawAmp_step_amp (t : List Char) :
    noRawAmp ('&' :: 'a' :: 'm' :: 'p' :: ';' :: t) = noRawAmp t := rfl

theorem noRawAmp_step_lt (t : List Char) :
    noRawAmp ('&' :: 'l' :: 't' :: ';' :: t) = noRawAmp t := rfl

theorem noRawAmp_step_gt (t : List Char) :
    noRawAmp ('&' :: 'g' :: 't' :: ';' :: t) = noRawAmp t := rfl

theorem noRawAmp_step_quot (t : List Char) :
    noRawAmp ('&' :: 'q' :: 'u' :: 'o' :: 't' :: ';' :: t) = noRawAmp t := rfl

theorem noRawAmp_step_num39 (t : List Char) :
    noRawAmp ('&' :: '#' :: '3' :: '9' :: ';' :: t) = noRawAmp t := rfl

/-- Standard entity decoding inverts the characterwise escape. -/
theorem unescape_flatMap_entityOf : ∀ l : List Char,
    unescapeXmlList (l.flatMap entityOf) = l := by
  intro l
  induction l with
  | nil => rfl
  | cons x rest ih =>
      rw [List.flatMap_cons]
      by_cases h₁ : x = '&'
      · subst h₁
        rw [show entityOf '&' ++ rest.flatMap entityOf =
          '&' :: 'a' :: 'm' :: 'p' :: ';' :: rest.flatMap entityOf from rfl,
          unescape_step_amp, ih]
      · by_cases h₂ : x = '<'
        · subst h₂
          rw [show entityOf '<' ++ rest.flatMap entityOf =
            '&' :: 'l' :: 't' :: ';' :: rest.flatMap entityOf from rfl,
            unescape_step_lt, ih]
        · by_cases h₃ : x = '>'
          · subst h₃
            rw [show entityOf '>' ++ rest.flatMap entityOf =
              '&' :: 'g' :: 't' :: ';' :: rest.flatMap entityOf from rfl,
              unescape_step_gt, ih]
          · by_cases h₄ : x = '"'
            · subst h₄
              rw [show entityOf '"' ++ rest.flatMap entityOf =
                '&' :: 'q' :: 'u' :: 'o' :: 't' :: ';' :: rest.flatMap entityOf from rfl,
                unescape_step_quot, ih]
            · by_cases h₅ : x = aposChar
              · subst h₅
                rw [show entityOf aposChar ++ rest.flatMap entityOf =
                  '&' :: '#' :: '3' :: '9' :: ';' :: rest.flatMap entityOf from rfl,
                  unescape_step_num39, ih]
                rfl
              · have hx : entityOf x = [x] := by simp [entityOf, h₁, h₂, h₃, h₄, h₅]
                rw [hx, List.singleton_append, unescape_cons_ne x h₁, ih]

/-- Every ampersand in an escaped string begins an entity. -/
theorem noRawAmp_flatMap_entityOf : ∀ l : List Char,
    noRawAmp (l.flatMap entityOf) = true := by
  intro l
  induction l with
  | nil => rfl
  | cons x rest ih =>
      rw [List.flatMap_cons]
      by_cases h₁ : x = '&'
      · subst h₁
        rw [show entityOf '&' ++ rest.flatMap entityOf =
          '&' :: 'a' :: 'm' :: 'p' :: ';' :: rest.flatMap entityOf from rfl,
          noRawAmp_step_amp, ih]
      · by_cases h₂ : x = '<'
        · subst h₂
          rw [show entityOf '<' ++ rest.flatMap entityOf =
            '&' :: 'l' :: 't' :: ';' :: rest.flatMap entityOf from rfl,
            noRawAmp_step_lt, ih]
        · by_cases h₃ : x = '>'
          · subst h₃
            rw [show entityOf '>' ++ rest.flatMap entityOf =
              '&' :: 'g' :: 't' :: ';' :: rest.flatMap entityOf from rfl,
              noRawAmp_step_gt, ih]
          · by_cases h₄ : x = '"'
            · subst h₄
              rw [show entityOf '"' ++ rest.flatMap entityOf =
                '&' :: 'q' :: 'u' :: 'o' :: 't' :: ';' :: rest.flatMap entityOf from rfl,
                noRawAmp_step_quot, ih]
            · by_cases h₅ : x = aposChar
              · subst h₅
                rw [show entityOf aposChar ++ rest.flatMap entityOf =
                  '&' :: '#' :: '3' :: '9' :: ';' :: rest.flatMap entityOf from rfl,
                  noRawAmp_step_num39, ih]
              · have hx : entityOf x = [x] := by simp [entityOf, h₁, h₂, h₃, h₄, h₅]
                rw [hx, List.singleton_append, noRawAmp_cons_ne x h₁, ih]

/-- No entity output contains a markup-significant character other than the
leading ampersand of an entity. -/
theorem entityOf_no_markup (a c : Char) (hc : c ∈ entityOf a) :
    c ≠ '<' ∧ c ≠ '>' ∧ c ≠ '"' ∧ c ≠ aposChar := by
  unfold entityOf at hc
  by_cases h₁ : a = '&'
  · rw [if_pos h₁, show ("&amp;".data : List Char) = ['&', 'a', 'm', 'p', ';'] from rfl]
      at hc
    fin_cases hc <;> decide
  · rw [if_neg h₁] at hc
    by_cases h₂ : a = '<'
    · rw [if_pos h₂, show ("&lt;".data : List Char) = ['&', 'l', 't', ';'] from rfl] at hc
      fin_cases hc <;> decide
    · rw [if_neg h₂] at hc
      by_cases h₃ : a = '>'
      · rw [if_pos h₃, show ("&gt;".data : List Char) = ['&', 'g', 't', ';'] from rfl] at hc
        fin_cases hc <;> decide
      · rw [if_neg h₃] at hc
        by_cases h₄ : a = '"'
        · rw [if_pos h₄,
            show ("&quot;".data : List Char) = ['&', 'q', 'u', 'o', 't', ';'] from rfl] at hc
          fin_cases hc <;> decide
        · rw [if_neg h₄] at hc
          by_cases h₅ : a = aposChar
          · rw [if_pos h₅,
              show ("&#39;".data : List Char) = ['&', '#', '3', '9', ';'] from rfl] at hc
            fin_cases hc <;> decide
          · rw [if_neg h₅] at hc
            rcases List.mem_singleton.mp hc with rfl
            exact ⟨h₂, h₃, h₄, h₅⟩

/-- C8: the element generator's XML escaping round-trips — the escaped form
of any string (in particular of `A & B <C> "D" 'E'`) contains no raw
markup-significant character (every `&` begins an entity; `<`, `>`, `"`,
`'` do not occur at all), and standard XML entity decoding applied to the
escaped form yields exactly the original string. -/
theorem escapeXml_roundTrip :
    (∀ s : String,
      (∀ c ∈ (escapeXml s).data, c ≠ '<' ∧ c ≠ '>' ∧ c ≠ '"' ∧ c ≠ aposChar)
      ∧ noRawAmp (escapeXml s).data = true
      ∧ unescapeXml (escapeXml s) = s)
    ∧ unescapeXml (escapeXml "A & B <C> \x22D\x22 \x27E\x27") =
        "A & B <C> \x22D\x22 \x27E\x27" := by
  have hmain : ∀ s : String,
      (∀ c ∈ (escapeXml s).data, c ≠ '<' ∧ c ≠ '>' ∧ c ≠ '"' ∧ c ≠ aposChar)
      ∧ noRawAmp (escapeXml s).data = true
      ∧ unescapeXml (escapeXml s) = s := by
    intro s
    refine ⟨?_, ?_, ?_⟩
    · intro c hc
      rw [show (escapeXml s).data = escapeXmlList s.data from rfl,
        escapeXmlList_eq_flatMap] at hc
      obtain ⟨a, _, hca⟩ := List.mem_flatMap.mp hc
      exact entityOf_no_markup a c hca
    · rw [show (escapeXml s).data = escapeXmlList s.data from rfl,
        escapeXmlList_eq_flatMap]
      exact noRawAmp_flatMap_entityOf s.data
    · show String.mk (unescapeXmlList (escapeXmlList s.data)) = s
      rw [escapeXmlList_eq_flatMap, unescape_flatMap_entityOf]
  exact ⟨hmain, (hmain _).2.2⟩

/-- Witness for C8 at the concrete name `a&b`. -/
theorem escapeXml_roundTrip_witness :
    ('a' ≠ '<' ∧ 'a' ≠ '>' ∧ 'a' ≠ '"' ∧ 'a' ≠ aposChar)
    ∧ unescapeXml (escapeXml "a&b") = "a&b" :=
  ⟨(escapeXml_roundTrip.1 "a&b").1 'a' (by decide),
   (escapeXml_roundTrip.1 "a&b").2.2⟩

/-! ## C4: canonical layer order implies strictly increasing row offsets -/

/-- Position of a layer in a layer list (first occurrence). -/
def idxIn (x : Layer) : List Layer → Nat
  | [] => 0
  | l :: rest => if l = x then 0 else idxIn x rest + 1

/-- The canonical index of each layer (Motivation 0 … Implementation 6). -/
def layerIndex : Layer → Nat
  | .motivation => 0
  | .strategy => 1
  | .business => 2
  | .application => 3
  | .technology => 4
  | .physical => 5
  | .implementation => 6

theorem layerIndex_eq_idxIn (l : Layer) : layerIndex l = idxIn l canonicalLayerOrder := by
  cases l <;> rfl

theorem layer_mem_canonical (l : Layer) : l ∈ canonicalLayerOrder := by
  cases l <;> simp [canonicalLayerOrder]

theorem canonical_nodup : canonicalLayerOrder.Nodup := by decide

/-- Two elements of a model with nodup ids and equal ids are equal. -/
theorem element_id_inj {elements : List BaseElement}
    (hnodup : (elements.map BaseElement.id).Nodup) {x y : BaseElement}
    (hx : x ∈ elements) (hy : y ∈ elements) (h : x.id = y.id) : x = y :=
  List.inj_on_of_nodup_map hnodup hx hy h

theorem mem_insertByType (e x : BaseElement) :
    ∀ l : List BaseElement, x ∈ insertByType e l ↔ x = e ∨ x ∈ l := by
  intro l
  induction l with
  | nil => simp [insertByType]
  | cons f rest ih =>
      by_cases h : charListLe (elementTypeTag f.type).data (elementTypeTag e.type).data
      · simp only [insertByType, if_pos h, List.mem_cons, ih]
        tauto
      · simp only [insertByType, if_neg h, List.mem_cons]

theorem mem_sortByType_aux (x : BaseElement) :
    ∀ (l acc : List BaseElement),
      x ∈ l.foldl (fun acc e => insertByType e acc) acc ↔ x ∈ acc ∨ x ∈ l := by
  intro l
  induction l with
  | nil => simp
  | cons e rest ih =>
      intro acc
      rw [List.foldl_cons, ih, mem_insertByType]
      simp only [List.mem_cons]
      tauto

theorem mem_sortByType (x : BaseElement) (l : List BaseElement) :
    x ∈ sortByType l ↔ x ∈ l := by
  rw [sortByType, mem_sortByType_aux]
  simp

theorem aget_mset_isSome {κ α : Type} [DecidableEq κ] (k k' : κ) (v : α)
    (m : List (κ × α)) :
    (aget k (mset k' v m)).isSome ↔ k = k' ∨ (aget k m).isSome := by
  by_cases h : k' = k
  · subst h
    simp [aget_mset_self]
  · rw [aget_mset_ne _ h]
    simp [Ne.symm h]

theorem mem_akeys_mset {κ α : Type} [DecidableEq κ] {k k' : κ} {v : α}
    {m : List (κ × α)} (h : k' ∈ akeys (mset k v m)) : k' = k ∨ k' ∈ akeys m := by
  obtain ⟨⟨k₁, v₁⟩, hmem, rfl⟩ := List.mem_map.mp h
  rcases mem_of_mem_mset hmem with h₂ | h₂
  · left
    rw [h₂]
  · right
    exact List.mem_map_of_mem Prod.fst h₂

theorem mem_foldl_mset {κ α : Type} [DecidableEq κ] :
    ∀ (entries m : List (κ × α)) (kv : κ × α),
      kv ∈ entries.foldl (fun acc kv => mset kv.1 kv.2 acc) m → kv ∈ m ∨ kv ∈ entries := by
  intro entries
  induction entries with
  | nil => intro m kv h; exact Or.inl h
  | cons e rest ih =>
      intro m kv h
      rw [List.foldl_cons] at h
      rcases ih _ kv h with h₂ | h₂
      · rcases mem_of_mem_mset h₂ with h₃ | h₃
        · right
          rw [h₃]
          exact List.mem_cons_self _ _
        · exact Or.inl h₃
      · exact Or.inr (List.mem_cons_of_mem _ h₂)

theorem mem_akeys_foldl_mset {κ α : Type} [DecidableEq κ]
    {entries m : List (κ × α)} {k : κ}
    (h : k ∈ akeys (entries.foldl (fun acc kv => mset kv.1 kv.2 acc) m)) :
    k ∈ akeys m ∨ k ∈ akeys entries := by
  obtain ⟨⟨k₁, v₁⟩, hmem, rfl⟩ := List.mem_map.mp h
  rcases mem_foldl_mset entries m _ hmem with h₂ | h₂
  · exact Or.inl (List.mem_map_of_mem Prod.fst h₂)
  · exact Or.inr (List.mem_map_of_mem Prod.fst h₂)

theorem layerLoop_y (config : LayoutConfiguration) (startY : Int) :
    ∀ (l : List BaseElement) (pos : List (String × Position))
      (dim : List (String × ElementDimensions)) (curX maxH : Int),
      (∀ kv ∈ pos, (kv.2 : Position).y = startY) →
      ∀ kv ∈ (layerLoop config startY l pos dim curX maxH).1, (kv.2 : Position).y = startY := by
  intro l
  induction l with
  | nil => intro pos dim curX maxH hpos; exact hpos
  | cons e rest ih =>
      intro pos dim curX maxH hpos
      apply ih
      intro kv hkv
      rcases mem_of_mem_mset hkv with h | h
      · rw [h]
      · exact hpos kv h

theorem layerLoop_isSome (config : LayoutConfiguration) (startY : Int) :
    ∀ (l : List BaseElement) (pos : List (String × Position))
      (dim : List (String × ElementDimensions)) (curX maxH : Int) (k : String),
      ((aget k pos).isSome ∨ ∃ e ∈ l, e.id = k) →
      (aget k (layerLoop config startY l pos dim curX maxH).1).isSome := by
  intro l
  induction l with
  | nil =>
      intro pos dim curX maxH k h
      rcases h with h | ⟨e, he, _⟩
      · exact h
      · simp at he
  | cons e rest ih =>
      intro pos dim curX maxH k h
      apply ih
      rcases h with h | ⟨e', he', hid⟩
      · left
        rw [aget_mset_isSome]
        exact Or.inr h
      · rcases List.mem_cons.mp he' with h₂ | h₂
        · left
          rw [aget_mset_isSome]
          left
          rw [← hid, h₂]
        · exact Or.inr ⟨e', h₂, hid⟩

theorem layerLoop_keys (config : LayoutConfiguration) (startY : Int) :
    ∀ (l : List BaseElement) (pos : List (String × Position))
      (dim : List (String × ElementDimensions)) (curX maxH : Int) (k : String),
      k ∈ akeys (layerLoop config startY l pos dim curX maxH).1 →
      k ∈ akeys pos ∨ ∃ e ∈ l, e.id = k := by
  intro l
  induction l with
  | nil => intro pos dim curX maxH k h; exact Or.inl h
  | cons e rest ih =>
      intro pos dim curX maxH k h
      rcases ih _ _ _ _ k h with h₂ | ⟨e', he', hid⟩
      · rcases mem_akeys_mset h₂ with h₃ | h₃
        · exact Or.inr ⟨e, List.mem_cons_self _ _, h₃.symm⟩
        · exact Or.inl h₃
      · exact Or.inr ⟨e', List.mem_cons_of_mem _ he', hid⟩

theorem layerLoop_keys_nodup (config : LayoutConfiguration) (startY : Int) :
    ∀ (l : List BaseElement) (pos : List (String × Position))
      (dim : List (String × ElementDimensions)) (curX maxH : Int),
      (akeys pos).Nodup → (akeys (layerLoop config startY l pos dim curX maxH).1).Nodup := by
  intro l
  induction l with
  | nil => intro pos dim curX maxH h; exact h
  | cons e rest ih =>
      intro pos dim curX maxH h
      exact ih _ _ _ _ (nodup_akeys_mset _ _ _ h)

theorem layerLoop_maxH_mono (config : LayoutConfiguration) (startY : Int) :
    ∀ (l : List BaseElement) (pos : List (String × Position))
      (dim : List (String × ElementDimensions)) (curX maxH : Int),
      maxH ≤ (layerLoop config startY l pos dim curX maxH).2.2.2 := by
  intro l
  induction l with
  | nil => intro pos dim curX maxH; exact le_refl _
  | cons e rest ih =>
      intro pos dim curX maxH
      exact le_trans (le_max_left _ _) (ih _ _ _ _)

theorem layoutLayer_y (config : LayoutConfiguration) (le : List BaseElement)
    (startY : Int) :
    ∀ kv ∈ (layoutLayer config le startY).positions, (kv.2 : Position).y = startY := by
  intro kv hkv
  exact layerLoop_y config startY (sortByType le) [] [] config.viewportPadding 0
    (by simp) kv hkv

theorem layoutLayer_some (config : LayoutConfiguration) (le : List BaseElement)
    (startY : Int) (e : BaseElement) (he : e ∈ le) :
    ∃ x, aget e.id (layoutLayer config le startY).positions = some ⟨x, startY⟩ := by
  have hsome : (aget e.id (layoutLayer config le startY).positions).isSome := by
    apply layerLoop_isSome config startY (sortByType le) [] [] config.viewportPadding 0
    exact Or.inr ⟨e, (mem_sortByType e le).mpr he, rfl⟩
  obtain ⟨p, hp⟩ := Option.isSome_iff_exists.mp hsome
  have hy : p.y = startY :=
    layoutLayer_y config le startY (e.id, p) (mem_of_aget_eq_some hp)
  exact ⟨p.x, by rw [hp, show (⟨p.x, startY⟩ : Position) = p from by
    cases p; simp at hy; rw [hy]]⟩

theorem layoutLayer_keys (config : LayoutConfiguration) (le : List BaseElement)
    (startY : Int) (k : String)
    (h : k ∈ akeys (layoutLayer config le startY).positions) : ∃ e ∈ le, e.id = k := by
  rcases layerLoop_keys config startY (sortByType le) [] [] config.viewportPadding 0 k h
    with h₂ | ⟨e, he, hid⟩
  · simp [akeys] at h₂
  · exact ⟨e, (mem_sortByType e le).mp he, hid⟩

theorem layoutLayer_keys_nodup (config : LayoutConfiguration) (le : List BaseElement)
    (startY : Int) : (akeys (layoutLayer config le startY).positions).Nodup :=
  layerLoop_keys_nodup config startY (sortByType le) [] [] config.viewportPadding 0
    (by simp [akeys])

theorem layoutLayer_nextY (le : List BaseElement) (startY : Int) :
    startY + 120 ≤ (layoutLayer defaultLayoutConfiguration le startY).nextY := by
  have h := layerLoop_maxH_mono defaultLayoutConfiguration startY (sortByType le) [] []
    defaultLayoutConfiguration.viewportPadding 0
  show startY + 120 ≤ startY + _ + defaultLayoutConfiguration.layerVerticalSpacing
  show startY + 120 ≤ startY + _ + 120
  omega

/-- Every binding produced by `genLoop` was either already present or has a
row offset at least the current row offset. -/
theorem genLoop_lower (elements : List BaseElement) :
    ∀ (layers : List Layer) (pos : List (String × Position))
      (dim : List (String × ElementDimensions)) (curY maxW : Int) (k : String)
      (pv : Position),
      aget k (genLoop defaultLayoutConfiguration elements layers pos dim curY maxW).1 =
        some pv →
      (k, pv) ∈ pos ∨ curY ≤ pv.y := by
  intro layers
  induction layers with
  | nil =>
      intro pos dim curY maxW k pv h
      exact Or.inl (mem_of_aget_eq_some h)
  | cons L rest ih =>
      intro pos dim curY maxW k pv h
      simp only [genLoop] at h
      by_cases hbkt : (elements.filter (fun e => e.layer == L)).isEmpty = true
      · rw [if_pos hbkt] at h
        exact ih _ _ _ _ k pv h
      · rw [if_neg hbkt] at h
        rcases ih _ _ _ _ k pv h with h₂ | h₂
        · rcases mem_foldl_mset _ _ _ h₂ with h₃ | h₃
          · exact Or.inl h₃
          · right
            rw [layoutLayer_y defaultLayoutConfiguration _ curY (k, pv) h₃]
        · right
          have hnext := layoutLayer_nextY (elements.filter (fun e => e.layer == L)) curY
          omega

/-- `genLoop` does not touch keys that belong to no remaining layer. -/
theorem genLoop_frame (elements : List BaseElement) :
    ∀ (layers : List Layer) (pos : List (String × Position))
      (dim : List (String × ElementDimensions)) (curY maxW : Int) (k : String),
      (∀ layer ∈ layers, ∀ e ∈ elements, e.layer = layer → e.id ≠ k) →
      aget k (genLoop defaultLayoutConfiguration elements layers pos dim curY maxW).1 =
        aget k pos := by
  intro layers
  induction layers with
  | nil => intro pos dim curY maxW k _; rfl
  | cons L rest ih =>
      intro pos dim curY maxW k hk
      simp only [genLoop]
      by_cases hbkt : (elements.filter (fun e => e.layer == L)).isEmpty = true
      · rw [if_pos hbkt]
        exact ih _ _ _ _ k (fun layer hl => hk layer (List.mem_cons_of_mem _ hl))
      · rw [if_neg hbkt]
        rw [ih _ _ _ _ k (fun layer hl => hk layer (List.mem_cons_of_mem _ hl))]
        apply aget_foldl_mset_not_mem
        intro hmem
        obtain ⟨e, he, hid⟩ :=
          layoutLayer_keys defaultLayoutConfiguration _ curY k hmem
        obtain ⟨he₁, he₂⟩ := List.mem_filter.mp he
        exact hk L (List.mem_cons_self _ _) e he₁ (by simpa using he₂) hid

/-- The heart of C4: if `a`'s layer strictly precedes `b`'s layer in the
remaining layer list, `a`'s assigned row offset is strictly below `b`'s. -/
theorem genLoop_y_lt (elements : List BaseElement)
    (hnodup : (elements.map BaseElement.id).Nodup)
    (a b : BaseElement) (ha : a ∈ elements) (hb : b ∈ elements) :
    ∀ (layers : List Layer) (pos : List (String × Position))
      (dim : List (String × ElementDimensions)) (curY maxW : Int),
      layers.Nodup →
      a.layer ∈ layers → b.layer ∈ layers →
      idxIn a.layer layers < idxIn b.layer layers →
      a.id ∉ akeys pos → b.id ∉ akeys pos →
      ∀ pa pb,
        aget a.id
          (genLoop defaultLayoutConfiguration elements layers pos dim curY maxW).1 =
          some pa →
        aget b.id
          (genLoop defaultLayoutConfiguration elements layers pos dim curY maxW).1 =
          some pb →
        pa.y < pb.y := by
  intro layers
  induction layers with
  | nil =>
      intro pos dim curY maxW _ haL
      simp at haL
  | cons L rest ih =>
      intro pos dim curY maxW hndp haL hbL hidx hapos hbpos pa pb hpa hpb
      have hbneq : L ≠ b.layer := by
        intro hEq
        rw [show idxIn b.layer (L :: rest) = 0 from by simp [idxIn, hEq]] at hidx
        omega
      have hbrest : b.layer ∈ rest := by
        rcases List.mem_cons.mp hbL with h | h
        · exact absurd h.symm hbneq
        · exact h
      have hLrest : L ∉ rest := (List.nodup_cons.mp hndp).1
      have hndrest : rest.Nodup := (List.nodup_cons.mp hndp).2
      by_cases hL : L = a.layer
      · subst hL
        have hfa : a ∈ elements.filter (fun e => e.layer == a.layer) :=
          List.mem_filter.mpr ⟨ha, by simp⟩
        have hbkt : ¬(elements.filter (fun e => e.layer == a.layer)).isEmpty = true := by
          intro hEq
          rw [List.isEmpty_iff] at hEq
          rw [hEq] at hfa
          simp at hfa
        simp only [genLoop] at hpa hpb
        rw [if_neg hbkt] at hpa hpb
        have hframe : ∀ layer ∈ rest, ∀ e ∈ elements, e.layer = layer → e.id ≠ a.id := by
          intro layer hlayer e he hel hid
          have heq := element_id_inj hnodup he ha hid
          subst heq
          rw [← hel] at hlayer
          exact hLrest hlayer
        rw [genLoop_frame elements rest _ _ _ _ a.id hframe] at hpa
        obtain ⟨xa, hxa⟩ :=
          layoutLayer_some defaultLayoutConfiguration
            (elements.filter (fun e => e.layer == a.layer)) curY a hfa
        have hmerged :
            aget a.id
              ((layoutLayer defaultLayoutConfiguration
                  (elements.filter (fun e => e.layer == a.layer)) curY).positions.foldl
                (fun m kv => mset kv.1 kv.2 m) pos) = some ⟨xa, curY⟩ :=
          aget_foldl_mset_mem _ pos
            (layoutLayer_keys_nodup defaultLayoutConfiguration _ curY)
            (mem_of_aget_eq_some hxa)
        rw [hmerged] at hpa
        have hpa_eq : pa = ⟨xa, curY⟩ := (Option.some.inj hpa).symm
        have hbm : b.id ∉ akeys
            ((layoutLayer defaultLayoutConfiguration
                (elements.filter (fun e => e.layer == a.layer)) curY).positions.foldl
              (fun m kv => mset kv.1 kv.2 m) pos) := by
          intro hmem
          rcases mem_akeys_foldl_mset hmem with h | h
          · exact hbpos h
          · obtain ⟨e, he, hid⟩ :=
              layoutLayer_keys defaultLayoutConfiguration _ curY b.id h
            obtain ⟨he₁, he₂⟩ := List.mem_filter.mp he
            have heq := element_id_inj hnodup he₁ hb hid
            subst heq
            have hba : e.layer = a.layer := by simpa using he₂
            exact hbneq hba.symm
        rcases genLoop_lower elements rest _ _ _ _ b.id pb hpb with h | h
        · exact absurd (List.mem_map_of_mem Prod.fst h) hbm
        · have hnext :=
            layoutLayer_nextY (elements.filter (fun e => e.layer == a.layer)) curY
          rw [hpa_eq]
          show curY < pb.y
          omega
      · have harest : a.layer ∈ rest := by
          rcases List.mem_cons.mp haL with h | h
          · exact absurd h.symm hL
          · exact h
        have hidx' : idxIn a.layer rest < idxIn b.layer rest := by
          rw [show idxIn a.layer (L :: rest) = idxIn a.layer rest + 1 from by
              simp [idxIn, hL],
            show idxIn b.layer (L :: rest) = idxIn b.layer rest + 1 from by
              simp [idxIn, hbneq]] at hidx
          omega
        simp only [genLoop] at hpa hpb
        by_cases hbkt : (elements.filter (fun e => e.layer == L)).isEmpty = true
        · rw [if_pos hbkt] at hpa hpb
          exact ih _ _ _ _ hndrest harest hbrest hidx' hapos hbpos pa pb hpa hpb
        · rw [if_neg hbkt] at hpa hpb
          have hapos' : a.id ∉ akeys
              ((layoutLayer defaultLayoutConfiguration
                  (elements.filter (fun e => e.layer == L)) curY).positions.foldl
                (fun m kv => mset kv.1 kv.2 m) pos) := by
            intro hmem
            rcases mem_akeys_foldl_mset hmem with h | h
            · exact hapos h
            · obtain ⟨e, he, hid⟩ :=
                layoutLayer_keys defaultLayoutConfiguration _ curY a.id h
              obtain ⟨he₁, he₂⟩ := List.mem_filter.mp he
              have heq := element_id_inj hnodup he₁ ha hid
              subst heq
              have hal : e.layer = L := by simpa using he₂
              exact hL hal.symm
          have hbpos' : b.id ∉ akeys
              ((layoutLayer defaultLayoutConfiguration
                  (elements.filter (fun e => e.layer == L)) curY).positions.foldl
                (fun m kv => mset kv.1 kv.2 m) pos) := by
            intro hmem
            rcases mem_akeys_foldl_mset hmem with h | h
            · exact hbpos h
            · obtain ⟨e, he, hid⟩ :=
                layoutLayer_keys defaultLayoutConfiguration _ curY b.id h
              obtain ⟨he₁, he₂⟩ := List.mem_filter.mp he
              have heq := element_id_inj hnodup he₁ hb hid
              subst heq
              have hbl : e.layer = L := by simpa using he₂
              exact hbneq hbl.symm
          exact ih _ _ _ _ hndrest harest hbrest hidx' hapos' hbpos' pa pb hpa hpb

/-- C4: in every layout result for the default configuration, if `a`'s layer
strictly precedes `b`'s layer in the canonical order (Motivation, Strategy,
Business, Application, Technology, Physical, Implementation), the
y-coordinate assigned to `a` is strictly less than the y-coordinate
assigned to `b` (element ids assumed unique per the data-model
invariant). -/
theorem layout_layer_ordering (elements : List BaseElement)
    (relationships : List Relationship) (a b : BaseElement)
    (hnodup : (elements.map BaseElement.id).Nodup)
    (ha : a ∈ elements) (hb : b ∈ elements)
    (hidx : layerIndex a.layer < layerIndex b.layer) (pa pb : Position)
    (hpa : aget a.id
      (generateLayout defaultLayoutConfiguration elements relationships).elementPositions =
      some pa)
    (hpb : aget b.id
      (generateLayout defaultLayoutConfiguration elements relationships).elementPositions =
      some pb) :
    pa.y < pb.y := by
  have h1 : (generateLayout defaultLayoutConfiguration elements
      relationships).elementPositions =
      (genLoop defaultLayoutConfiguration elements canonicalLayerOrder [] [] 60 0).1 := rfl
  rw [h1] at hpa hpb
  exact genLoop_y_lt elements hnodup a b ha hb canonicalLayerOrder [] [] 60 0
    canonical_nodup (layer_mem_canonical _) (layer_mem_canonical _)
    (by rw [← layerIndex_eq_idxIn, ← layerIndex_eq_idxIn]; exact hidx)
    (by simp [akeys]) (by simp [akeys]) pa pb hpa hpb

/-- Witness for C4: a Motivation-layer goal above a Business-layer actor. -/
theorem layout_layer_ordering_witness :
    (⟨60, 60⟩ : Position).y < (⟨60, 235⟩ : Position).y :=
  layout_layer_ordering
    [⟨"c", "Goal1", .goal, .motivation⟩, ⟨"a", "Customer", .businessActor, .business⟩]
    [] ⟨"c", "Goal1", .goal, .motivation⟩ ⟨"a", "Customer", .businessActor, .business⟩
    (by decide) (by decide) (by decide) (by decide) ⟨60, 60⟩ ⟨60, 235⟩
    (by decide) (by decide)

end Archimate
